import Mathlib

/-!
Shallow embedding of the NFL-Data repository: the season exporter
(scripts/season_to_sqlite.py) and the dashboard command builder
(streamlit_app.py).  Database statements are modelled as immediately
applied updates on an explicit database value, matching the
per-statement implicit transactions of the sqlite connection.  The
external data provider (nflreadpy) is modelled as a record of fetch
results, one per dataset: either a frame or a raised exception.
-/

/-- A data row as stored in a dataset table: the season column plus an
abstract payload standing for the remaining provider-owned columns. -/
structure Row where
  season : Int
  payload : Nat
deriving DecidableEq

/-- A tabular frame as fetched from the provider and converted by
to_pandas: a list of column names and a list of rows. -/
structure Frame where
  cols : List String
  rows : List Row
deriving DecidableEq

/-- pandas DataFrame.empty: true when any axis has length zero. -/
def Frame.pandasEmpty (f : Frame) : Bool :=
  f.rows.isEmpty || f.cols.isEmpty

/-- One row of the ingest_metadata ledger. -/
structure MetaRow where
  table_name : String
  season : Int
  summary_level : Option String
  ingested_at : String
deriving DecidableEq

/-- The sqlite database: the dataset tables (by name; none means the
table does not exist), the ingest_metadata ledger, and the named
secondary indexes as (name, table, key columns) entries. -/
structure DB where
  tables : String → Option (List Row)
  ledger : List MetaRow
  indexes : List (String × String × List String)

/-- Rows of a dataset table, empty when the table is absent. -/
def tableRows (db : DB) (t : String) : List Row :=
  (db.tables t).getD []

/-- DELETE FROM ingest_metadata WHERE table_name = ? AND season = ?. -/
def deleteLedgerRows (db : DB) (t : String) (S : Int) : DB :=
  { db with ledger := db.ledger.filter (fun r => !(r.table_name == t && r.season == S)) }

/-- DELETE FROM {table} WHERE season = ?; raises sqlite3.OperationalError
when the table does not exist. -/
def deleteSeasonRows (db : DB) (t : String) (S : Int) : Except Unit DB :=
  match db.tables t with
  | none => .error ()
  | some rs =>
      .ok { db with tables := fun u => if u = t then some (rs.filter (fun r => r.season != S)) else db.tables u }

/-- pandas to_sql with if_exists set to append: create the table when it
is absent, then append the frame rows at the end. -/
def appendTableRows (db : DB) (t : String) (rows : List Row) : DB :=
  { db with tables := fun u => if u = t then some (tableRows db t ++ rows) else db.tables u }

/-- CREATE INDEX IF NOT EXISTS name ON table(cols): a no-op when an index
of that name already exists. -/
def createIndexIfNotExists (db : DB) (name : String) (t : String) (cols : List String) : DB :=
  if db.indexes.any (fun e => e.1 == name) then db
  else { db with indexes := db.indexes ++ [(name, t, cols)] }

/-- Appending a batch of rows to the ingest_metadata ledger table
(pandas to_sql with if_exists set to append). -/
def appendLedger (db : DB) (rows : List MetaRow) : DB :=
  { db with ledger := db.ledger ++ rows }

/-- The mutable state of one export_season call: the connection plus the
metadata_rows and created_tables accumulators. -/
structure SeasonState where
  db : DB
  metadata_rows : List MetaRow
  created_tables : List String

/-- Python set.add on created_tables (only membership is ever queried). -/
def insertNew (l : List String) (x : String) : List String :=
  if x ∈ l then l else l ++ [x]

/-- The inner persist closure of export_season: skip a missing frame,
skip an empty columnless frame with a warning, otherwise delete the
ledger rows for (table_name, season), attempt to delete the data rows of
that season (swallowing the missing-table error), append the fresh rows
and record a metadata row. -/
def persist (season : Int) (timestamp : String) (table_name : String)
    (frame : Option Frame) (summary : Option String) (s : SeasonState) : SeasonState :=
  match frame with
  | none => s
  | some f =>
      if f.pandasEmpty && f.cols.isEmpty then s
      else
        let db1 := deleteLedgerRows s.db table_name season
        let db2 := match deleteSeasonRows db1 table_name season with
          | .ok d => d
          | .error _ => db1
        let db3 := appendTableRows db2 table_name f.rows
        { db := db3
          metadata_rows := s.metadata_rows ++ [⟨table_name, season, summary, timestamp⟩]
          created_tables := insertNew s.created_tables table_name }

/-- try_load: any exception raised by the loader is caught, logged as a
warning and turned into None. -/
def try_load (r : Except String Frame) : Option Frame :=
  match r with
  | .ok f => some f
  | .error _ => none

/-- ADV_STAT_TYPES from the script. -/
def ADV_STAT_TYPES : List String := ["pass", "rush", "rec", "def"]

/-- The fetch results that the provider yields for one season: either a
frame or a raised exception per dataset. -/
structure FetchResults where
  team_stats : Except String Frame
  schedules : Except String Frame
  rosters : Except String Frame
  injuries : Except String Frame
  adv_pass : Except String Frame
  adv_rush : Except String Frame
  adv_rec : Except String Frame
  adv_def : Except String Frame

/-- nfl.load_pfr_advstats dispatched on stat_type. -/
def advFetch (fetch : FetchResults) (st : String) : Except String Frame :=
  if st = "pass" then fetch.adv_pass
  else if st = "rush" then fetch.adv_rush
  else if st = "rec" then fetch.adv_rec
  else fetch.adv_def

/-- The advanced-stats table name f-string. -/
def advTableName (st adv : String) : String :=
  s!"pfr_advstats_{st}_{adv}"

/-- One conditional CREATE INDEX statement of the index block: executed
only when the table is in the created_tables set of this season. -/
def createIndexIfTable (created : List String) (tbl : String) (db : DB)
    (name : String) (cols : List String) : DB :=
  if tbl ∈ created then createIndexIfNotExists db name tbl cols else db

/-- The index-creation block at the end of export_season, reading the
created_tables set. -/
def indexPhase (advstats_summary : String) (s : SeasonState) : DB :=
  let d1 := createIndexIfTable s.created_tables "team_stats" s.db
    "idx_team_stats_season_team" ["season", "team"]
  let d2 := createIndexIfTable s.created_tables "schedules" d1
    "idx_schedules_season_week" ["season", "week"]
  let d3 := createIndexIfTable s.created_tables "rosters" d2
    "idx_rosters_season_team" ["season", "team"]
  let d4 := createIndexIfTable s.created_tables "injuries" d3
    "idx_injuries_season_week_team" ["season", "week", "team"]
  ADV_STAT_TYPES.foldl (fun d st =>
    let tn := advTableName st advstats_summary
    createIndexIfTable s.created_tables tn d (s!"idx_{tn}_season") ["season"]) d4

/-- export_season: fetch team_stats and schedules (required, exceptions
propagate), fetch the optional datasets through try_load, persist each
dataset in the fixed order, then create the secondary indexes; returns
the updated database and the metadata rows of this season. -/
def export_season (season : Int) (summary_level advstats_summary : String)
    (fetch : FetchResults) (timestamp : String) (db : DB) :
    Except String (DB × List MetaRow) :=
  match fetch.team_stats with
  | .error e => .error e
  | .ok team_stats =>
    match fetch.schedules with
    | .error e => .error e
    | .ok schedules =>
      let rosters := try_load fetch.rosters
      let injuries := try_load fetch.injuries
      let adv_tables : List (String × Frame) :=
        ADV_STAT_TYPES.filterMap (fun st =>
          (try_load (advFetch fetch st)).map (fun f => (advTableName st advstats_summary, f)))
      let s0 : SeasonState := ⟨db, [], []⟩
      let s1 := persist season timestamp "team_stats" (some team_stats) (some summary_level) s0
      let s2 := persist season timestamp "schedules" (some schedules) none s1
      let s3 := persist season timestamp "rosters" rosters none s2
      let s4 := persist season timestamp "injuries" injuries none s3
      let s5 := adv_tables.foldl
        (fun s p => persist season timestamp p.1 (some p.2) (some advstats_summary) s) s4
      .ok (indexPhase advstats_summary s5, s5.metadata_rows)

/-- The season loop of main: process the seasons in order, accumulating
all_metadata; a raised exception aborts the loop, carrying the message
and the database state at the abort point. -/
def runSeasons (summary_level advstats_summary : String) (fetch : Int → FetchResults)
    (timestamp : String) : List Int → DB → List MetaRow →
    Except (String × DB) (DB × List MetaRow)
  | [], db, acc => .ok (db, acc)
  | s :: rest, db, acc =>
    match export_season s summary_level advstats_summary (fetch s) timestamp db with
    | .error e => .error (e, db)
    | .ok (db2, rows) =>
        runSeasons summary_level advstats_summary fetch timestamp rest db2 (acc ++ rows)

/-- main: one timestamp captured at run start, the season loop, then the
single final batch append of all_metadata to ingest_metadata (guarded on
all_metadata being non-empty).  Returns the final database together with
the accumulated all_metadata batch; an error value is the non-zero exit,
carrying the database state at the abort point. -/
def runMain (seasons : List Int) (summary_level advstats_summary : String)
    (fetch : Int → FetchResults) (timestamp : String) (db0 : DB) :
    Except (String × DB) (DB × List MetaRow) :=
  match runSeasons summary_level advstats_summary fetch timestamp seasons db0 [] with
  | .error e => .error e
  | .ok (db, all_metadata) =>
    if all_metadata.isEmpty then .ok (db, all_metadata)
    else .ok (appendLedger db all_metadata, all_metadata)

/-- Number of ledger rows for one (table_name, season) pair. -/
def countPair (L : List MetaRow) (t : String) (S : Int) : Nat :=
  (L.filter (fun r => r.table_name == t && r.season == S)).length

/-- Python sorted on the selected seasons (ascending). -/
def sortSeasons (l : List Int) : List Int :=
  List.insertionSort (· ≤ ·) l

/-- The dashboard command builder: base command plus the option flags,
then one pair of season flags per selected season, in sorted order. -/
def buildCommand (python script adv_summary summary_level : String)
    (selected : List Int) : List String :=
  (sortSeasons selected).foldl (fun cmd s => cmd ++ ["--season", toString s])
    ([python, script] ++ ["--advstats-summary", adv_summary, "--summary-level", summary_level])

/-!
Verification machinery: the sequence of persist calls inside one
export_season call is described as a chain of (table, frame, summary)
items, and the effect of the chain on each projection of the state is
computed by structural recursion over the chain.
-/

/-- One persist call: table name, optional frame, optional summary tag. -/
abbrev ChainItem := String × Option Frame × Option String

/-- Folding the persist closure over a chain of items. -/
def applyChain (season : Int) (ts : String) (s : SeasonState) (C : List ChainItem) : SeasonState :=
  C.foldl (fun s c => persist season ts c.1 c.2.1 c.2.2 s) s

/-- The persist chain that export_season executes for one season, as a
function of the fetch results and the two option values. -/
def chainOf (fetch : FetchResults) (summary_level advstats_summary : String) : List ChainItem :=
  [("team_stats", try_load fetch.team_stats, some summary_level),
   ("schedules", try_load fetch.schedules, none),
   ("rosters", try_load fetch.rosters, none),
   ("injuries", try_load fetch.injuries, none)] ++
  ADV_STAT_TYPES.map (fun st =>
    (advTableName st advstats_summary, try_load (advFetch fetch st), some advstats_summary))

/-- The effect of one chain item on the rows of the table named u. -/
def stepRows (S : Int) (u : String) (L : List Row) (c : ChainItem) : List Row :=
  match c with
  | (t, some f, _) =>
      if u = t ∧ f.cols ≠ [] then L.filter (fun r => r.season != S) ++ f.rows else L
  | (_, none, _) => L

/-- The effect of a whole chain on the rows of the table named u. -/
def chainRows (S : Int) (u : String) (C : List ChainItem) (L : List Row) : List Row :=
  C.foldl (stepRows S u) L

/-- Every frame present in a chain has all of its rows in season S. -/
def ChainSeasonOK (S : Int) (C : List ChainItem) : Prop :=
  ∀ c ∈ C, ∀ f, c.2.1 = some f → ∀ r ∈ f.rows, r.season = S

/-- Every frame the provider returns for this season carries only rows
of that season (the provider contract for per-season loads). -/
def FetchFramesSeason (fetch : FetchResults) (S : Int) : Prop :=
  (∀ f, fetch.team_stats = .ok f → ∀ r ∈ f.rows, r.season = S) ∧
  (∀ f, fetch.schedules = .ok f → ∀ r ∈ f.rows, r.season = S) ∧
  (∀ f, fetch.rosters = .ok f → ∀ r ∈ f.rows, r.season = S) ∧
  (∀ f, fetch.injuries = .ok f → ∀ r ∈ f.rows, r.season = S) ∧
  (∀ f, fetch.adv_pass = .ok f → ∀ r ∈ f.rows, r.season = S) ∧
  (∀ f, fetch.adv_rush = .ok f → ∀ r ∈ f.rows, r.season = S) ∧
  (∀ f, fetch.adv_rec = .ok f → ∀ r ∈ f.rows, r.season = S) ∧
  (∀ f, fetch.adv_def = .ok f → ∀ r ∈ f.rows, r.season = S)

/-- Concrete witness data: a fetch with the two required frames and all
optional loads failing, against an empty database. -/
def wFrameTS : Frame := ⟨["season", "team"], [⟨2023, 0⟩]⟩

def wFrameSC : Frame := ⟨["season", "week"], [⟨2023, 1⟩]⟩

def wFetch : FetchResults :=
  ⟨.ok wFrameTS, .ok wFrameSC, .error "offline", .error "offline",
   .error "offline", .error "offline", .error "offline", .error "offline"⟩

def wDB0 : DB := ⟨fun _ => none, [], []⟩

/-- Database component of a run result (the abort-state database for an
error result). -/
def okDB (r : Except (String × DB) (DB × List MetaRow)) : DB :=
  match r with
  | .ok (d, _) => d
  | .error (_, d) => d

/-- Metadata component of a successful run result. -/
def okMeta (r : Except (String × DB) (DB × List MetaRow)) : List MetaRow :=
  match r with
  | .ok (_, m) => m
  | .error _ => []

def wRun1 : Except (String × DB) (DB × List MetaRow) :=
  runMain [2023] "reg" "week" (fun _ => wFetch) "2025-01-01T00:00:00+00:00" wDB0

def wDB1 : DB := okDB wRun1

def wRun2 : Except (String × DB) (DB × List MetaRow) :=
  runMain [2023] "reg" "week" (fun _ => wFetch) "2025-01-02T00:00:00+00:00" wDB1

def wDB2 : DB := okDB wRun2

def wState : SeasonState := ⟨wDB0, [], []⟩

/-- The ledger and metadata invariant carried through the persist chain
of one season. -/
def SeasonInv (S : Int) (ts : String) (L0 : List MetaRow) (s : SeasonState) : Prop :=
  (∀ r ∈ s.metadata_rows, r.season = S ∧ r.ingested_at = ts) ∧
  s.db.ledger.Sublist L0 ∧
  (∀ t, 0 < countPair s.metadata_rows t S → countPair s.db.ledger t S = 0)

def wFetchBad : FetchResults :=
  ⟨.error "HTTPError", .ok wFrameSC, .error "offline", .error "offline",
   .error "offline", .error "offline", .error "offline", .error "offline"⟩

/-- Step relation of the index block: existing index entries are all
preserved and nothing is added under an already-present index name. -/
def IdxStep (db db2 : DB) : Prop :=
  (∀ e ∈ db.indexes, e ∈ db2.indexes) ∧
  (∀ e ∈ db2.indexes, e ∈ db.indexes ∨ e.1 ∉ db.indexes.map (fun x => x.1))

def wExport : Except String (DB × List MetaRow) :=
  export_season 2023 "reg" "week" wFetch "2025-01-01T00:00:00+00:00" wDB0

/-- Database component of an export_season result. -/
def exDB (r : Except String (DB × List MetaRow)) : DB :=
  match r with
  | .ok (d, _) => d
  | .error _ => ⟨fun _ => none, [], []⟩

/-- Metadata component of an export_season result. -/
def exRows (r : Except String (DB × List MetaRow)) : List MetaRow :=
  match r with
  | .ok (_, m) => m
  | .error _ => []

def wFetchOpt : FetchResults :=
  ⟨.ok wFrameTS, .ok wFrameSC, .ok ⟨["season", "team"], [⟨2023, 3⟩]⟩, .error "offline",
   .error "offline", .error "offline", .error "offline", .error "offline"⟩

def wRunOpt : Except (String × DB) (DB × List MetaRow) :=
  runMain [2023] "reg" "week" (fun _ => wFetchOpt) "2025-01-01T00:00:00+00:00" wDB0

theorem persist_none (S : Int) (ts t : String) (sm : Option String) (s : SeasonState) :
    persist S ts t none sm s = s := rfl

theorem persist_skip_cond {f : Frame} (h : f.cols = []) :
    (f.pandasEmpty && f.cols.isEmpty) = true := by
  simp [Frame.pandasEmpty, h]

theorem persist_write_cond {f : Frame} (h : f.cols ≠ []) :
    (f.pandasEmpty && f.cols.isEmpty) = false := by
  cases hc : f.cols with
  | nil => exact absurd hc h
  | cons a l => simp [Frame.pandasEmpty, hc]

theorem persist_skip {f : Frame} (h : f.cols = []) (S : Int) (ts t : String)
    (sm : Option String) (s : SeasonState) :
    persist S ts t (some f) sm s = s := by
  simp only [persist]
  rw [persist_skip_cond h]
  rfl

theorem persist_write_tables {f : Frame} (h : f.cols ≠ []) (S : Int) (ts t : String)
    (sm : Option String) (s : SeasonState) (u : String) :
    (persist S ts t (some f) sm s).db.tables u =
      if u = t then some ((tableRows s.db t).filter (fun r => r.season != S) ++ f.rows)
      else s.db.tables u := by
  simp only [persist]
  rw [persist_write_cond h]
  simp only [Bool.false_eq_true, if_false, deleteSeasonRows, deleteLedgerRows]
  cases hdb : s.db.tables t with
  | none => by_cases hu : u = t <;> simp [hdb, appendTableRows, tableRows, hu]
  | some rs => by_cases hu : u = t <;> simp [hdb, appendTableRows, tableRows, hu]

theorem persist_write_ledger {f : Frame} (h : f.cols ≠ []) (S : Int) (ts t : String)
    (sm : Option String) (s : SeasonState) :
    (persist S ts t (some f) sm s).db.ledger =
      s.db.ledger.filter (fun r => !(r.table_name == t && r.season == S)) := by
  simp only [persist]
  rw [persist_write_cond h]
  simp only [Bool.false_eq_true, if_false, deleteSeasonRows, deleteLedgerRows]
  cases hdb : s.db.tables t with
  | none => simp [hdb, appendTableRows]
  | some rs => simp [hdb, appendTableRows]

theorem persist_write_meta {f : Frame} (h : f.cols ≠ []) (S : Int) (ts t : String)
    (sm : Option String) (s : SeasonState) :
    (persist S ts t (some f) sm s).metadata_rows =
      s.metadata_rows ++ [⟨t, S, sm, ts⟩] := by
  simp only [persist]
  rw [persist_write_cond h]
  simp only [Bool.false_eq_true, if_false, deleteSeasonRows, deleteLedgerRows]

theorem persist_write_created {f : Frame} (h : f.cols ≠ []) (S : Int) (ts t : String)
    (sm : Option String) (s : SeasonState) :
    (persist S ts t (some f) sm s).created_tables = insertNew s.created_tables t := by
  simp only [persist]
  rw [persist_write_cond h]
  simp only [Bool.false_eq_true, if_false, deleteSeasonRows, deleteLedgerRows]

theorem persist_db_indexes (S : Int) (ts t : String) (fr : Option Frame)
    (sm : Option String) (s : SeasonState) :
    (persist S ts t fr sm s).db.indexes = s.db.indexes := by
  cases fr with
  | none => rfl
  | some f =>
      by_cases h : f.cols = []
      · rw [persist_skip h]
      · simp only [persist]
        rw [persist_write_cond h]
        simp only [Bool.false_eq_true, if_false, deleteSeasonRows, deleteLedgerRows]
        cases hdb : s.db.tables t with
        | none => simp [hdb, appendTableRows]
        | some rs => simp [hdb, appendTableRows]

theorem applyChain_nil (S : Int) (ts : String) (s : SeasonState) :
    applyChain S ts s [] = s := rfl

theorem applyChain_cons (S : Int) (ts : String) (s : SeasonState) (c : ChainItem)
    (C : List ChainItem) :
    applyChain S ts s (c :: C) = applyChain S ts (persist S ts c.1 c.2.1 c.2.2 s) C := rfl

theorem applyChain_append (S : Int) (ts : String) (s : SeasonState)
    (C1 C2 : List ChainItem) :
    applyChain S ts s (C1 ++ C2) = applyChain S ts (applyChain S ts s C1) C2 :=
  List.foldl_append _ _ C1 C2

theorem persist_tableRows (S : Int) (ts t : String) (fr : Option Frame)
    (sm : Option String) (s : SeasonState) (u : String) :
    tableRows (persist S ts t fr sm s).db u = stepRows S u (tableRows s.db u) (t, fr, sm) := by
  cases fr with
  | none => rfl
  | some f =>
      by_cases hc : f.cols = []
      · rw [persist_skip hc]
        simp [stepRows, hc]
      · simp only [tableRows, persist_write_tables hc]
        by_cases hu : u = t
        · simp [stepRows, hu, hc, tableRows]
        · simp [stepRows, hu, hc]

theorem applyChain_tableRows (S : Int) (ts : String) (C : List ChainItem)
    (s : SeasonState) (u : String) :
    tableRows (applyChain S ts s C).db u = chainRows S u C (tableRows s.db u) := by
  induction C generalizing s with
  | nil => rfl
  | cons c C ih =>
      obtain ⟨t, fr, sm⟩ := c
      rw [applyChain_cons, ih]
      show chainRows S u C (tableRows (persist S ts t fr sm s).db u) = _
      rw [persist_tableRows]
      rfl

theorem applyChain_indexes (S : Int) (ts : String) (C : List ChainItem) (s : SeasonState) :
    (applyChain S ts s C).db.indexes = s.db.indexes := by
  induction C generalizing s with
  | nil => rfl
  | cons c C ih =>
      rw [applyChain_cons, ih, persist_db_indexes]

/-- Conversion between the fold over the adv_tables dict (only the
successful loads) and the fold over the full chain including the skipped
loads as missing frames. -/
theorem foldl_adv_eq (S : Int) (ts adv : String) (g : String → Option Frame)
    (nm : String → String) (l : List String) (s : SeasonState) :
    (l.filterMap (fun st => (g st).map (fun f => (nm st, f)))).foldl
        (fun s p => persist S ts p.1 (some p.2) (some adv) s) s =
      (l.map (fun st => ((nm st, g st, some adv) : ChainItem))).foldl
        (fun s c => persist S ts c.1 c.2.1 c.2.2 s) s := by
  induction l generalizing s with
  | nil => rfl
  | cons st l ih =>
      cases hg : g st with
      | none =>
          simp only [List.filterMap_cons, hg, List.map_cons, List.foldl_cons]
          rw [persist_none]
          exact ih s
      | some f =>
          simp only [List.filterMap_cons, hg, List.map_cons, List.foldl_cons, Option.map_some]
          exact ih _

/-- Success-path characterization of export_season: when the two
required fetches yield frames, export_season is the persist chain
followed by the index phase. -/
theorem export_season_eq_chain {fetch : FetchResults} {ftm fsc : Frame}
    (hts : fetch.team_stats = .ok ftm) (hsc : fetch.schedules = .ok fsc)
    (S : Int) (sl adv ts : String) (db : DB) :
    export_season S sl adv fetch ts db =
      .ok (indexPhase adv (applyChain S ts ⟨db, [], []⟩ (chainOf fetch sl adv)),
           (applyChain S ts ⟨db, [], []⟩ (chainOf fetch sl adv)).metadata_rows) := by
  unfold export_season
  rw [hts, hsc]
  unfold chainOf
  rw [show try_load fetch.team_stats = some ftm from by rw [hts]; rfl,
      show try_load fetch.schedules = some fsc from by rw [hsc]; rfl]
  exact congrArg
    (fun s5 : SeasonState => Except.ok (indexPhase adv s5, s5.metadata_rows))
    (foldl_adv_eq S ts adv (fun st => try_load (advFetch fetch st))
      (fun st => advTableName st adv) ADV_STAT_TYPES
      (persist S ts "injuries" (try_load fetch.injuries) none
        (persist S ts "rosters" (try_load fetch.rosters) none
          (persist S ts "schedules" (some fsc) none
            (persist S ts "team_stats" (some ftm) (some sl) ⟨db, [], []⟩)))))

theorem chainRows_cons (S : Int) (u : String) (c : ChainItem) (C : List ChainItem)
    (L : List Row) :
    chainRows S u (c :: C) L = chainRows S u C (stepRows S u L c) := rfl

theorem filter_ne_nil_of_all {S : Int} {L : List Row} (h : ∀ r ∈ L, r.season = S) :
    L.filter (fun r => r.season != S) = [] := by
  rw [List.filter_eq_nil_iff]
  intro r hr
  simp [h r hr]

theorem stepRows_filter {S : Int} {u : String} {c : ChainItem}
    (hc : ∀ f, c.2.1 = some f → ∀ r ∈ f.rows, r.season = S) (L : List Row) :
    (stepRows S u L c).filter (fun r => r.season != S) =
      L.filter (fun r => r.season != S) := by
  obtain ⟨t, fr, sm⟩ := c
  cases fr with
  | none => rfl
  | some f =>
      simp only [stepRows]
      split
      · rw [List.filter_append, filter_ne_nil_of_all (hc f rfl), List.append_nil,
          List.filter_filter]
        simp only [Bool.and_self]
      · rfl

theorem chainRows_filter {S : Int} {u : String} {C : List ChainItem}
    (hC : ChainSeasonOK S C) (L : List Row) :
    (chainRows S u C L).filter (fun r => r.season != S) =
      L.filter (fun r => r.season != S) := by
  induction C generalizing L with
  | nil => rfl
  | cons c C ih =>
      rw [chainRows_cons, ih (fun c' h' => hC c' (List.mem_cons_of_mem c h')),
        stepRows_filter (hC c (List.mem_cons_self c C))]

/-- Running the same persist chain a second time does not change the
rows of any table, provided every frame in the chain carries only rows
of the exported season. -/
theorem chainRows_idem {S : Int} {u : String} {C : List ChainItem}
    (hC : ChainSeasonOK S C) (L : List Row) :
    chainRows S u C (chainRows S u C L) = chainRows S u C L := by
  induction C generalizing L with
  | nil => rfl
  | cons c C ih =>
      have hch := hC c (List.mem_cons_self c C)
      have hCt : ChainSeasonOK S C := fun c' h' => hC c' (List.mem_cons_of_mem c h')
      obtain ⟨t, fr, sm⟩ := c
      rw [chainRows_cons, chainRows_cons]
      cases fr with
      | none => exact ih hCt _
      | some f =>
          by_cases hw : u = t ∧ f.cols ≠ []
          · have hst : ∀ X : List Row,
                stepRows S u X (t, some f, sm) =
                  X.filter (fun r => r.season != S) ++ f.rows := by
              intro X
              simp [stepRows, hw]
            simp only [hst]
            rw [chainRows_filter hCt, List.filter_append,
              filter_ne_nil_of_all (hch f rfl), List.append_nil, List.filter_filter]
            simp only [Bool.and_self]
          · have hst : ∀ X : List Row, stepRows S u X (t, some f, sm) = X := by
              intro X
              simp [stepRows, hw]
            simp only [hst]
            exact ih hCt _

theorem createIndex_tables (db : DB) (n t : String) (c : List String) :
    (createIndexIfNotExists db n t c).tables = db.tables := by
  unfold createIndexIfNotExists
  split <;> rfl

theorem createIndex_ledger (db : DB) (n t : String) (c : List String) :
    (createIndexIfNotExists db n t c).ledger = db.ledger := by
  unfold createIndexIfNotExists
  split <;> rfl

theorem foldl_tables_preserve {α : Type} (g : DB → α → DB) (l : List α) (d : DB)
    (hg : ∀ d a, (g d a).tables = d.tables) :
    (l.foldl g d).tables = d.tables := by
  induction l generalizing d with
  | nil => rfl
  | cons a l ih => rw [List.foldl_cons, ih, hg]

theorem foldl_ledger_preserve {α : Type} (g : DB → α → DB) (l : List α) (d : DB)
    (hg : ∀ d a, (g d a).ledger = d.ledger) :
    (l.foldl g d).ledger = d.ledger := by
  induction l generalizing d with
  | nil => rfl
  | cons a l ih => rw [List.foldl_cons, ih, hg]

theorem createIndexIfTable_tables (cr : List String) (tbl : String) (db : DB)
    (n : String) (c : List String) :
    (createIndexIfTable cr tbl db n c).tables = db.tables := by
  unfold createIndexIfTable
  split <;> simp [createIndex_tables]

theorem createIndexIfTable_ledger (cr : List String) (tbl : String) (db : DB)
    (n : String) (c : List String) :
    (createIndexIfTable cr tbl db n c).ledger = db.ledger := by
  unfold createIndexIfTable
  split <;> simp [createIndex_ledger]

theorem indexPhase_tables (adv : String) (s : SeasonState) :
    (indexPhase adv s).tables = s.db.tables := by
  unfold indexPhase
  rw [foldl_tables_preserve]
  · rw [createIndexIfTable_tables, createIndexIfTable_tables,
      createIndexIfTable_tables, createIndexIfTable_tables]
  · intro d st
    dsimp only
    rw [createIndexIfTable_tables]

theorem indexPhase_ledger (adv : String) (s : SeasonState) :
    (indexPhase adv s).ledger = s.db.ledger := by
  unfold indexPhase
  rw [foldl_ledger_preserve]
  · rw [createIndexIfTable_ledger, createIndexIfTable_ledger,
      createIndexIfTable_ledger, createIndexIfTable_ledger]
  · intro d st
    dsimp only
    rw [createIndexIfTable_ledger]

theorem appendLedger_tables (db : DB) (m : List MetaRow) :
    (appendLedger db m).tables = db.tables := rfl

theorem export_season_error_ts {fetch : FetchResults} {e : String}
    (h : fetch.team_stats = .error e) (S : Int) (sl adv ts : String) (db : DB) :
    export_season S sl adv fetch ts db = .error e := by
  unfold export_season
  rw [h]

theorem export_season_error_sc {fetch : FetchResults} {ftm : Frame} {e : String}
    (hts : fetch.team_stats = .ok ftm) (h : fetch.schedules = .error e)
    (S : Int) (sl adv ts : String) (db : DB) :
    export_season S sl adv fetch ts db = .error e := by
  unfold export_season
  rw [hts, h]

theorem try_load_eq_some {e : Except String Frame} {f : Frame}
    (h : try_load e = some f) : e = .ok f := by
  cases e with
  | ok g =>
      simp only [try_load, Option.some.injEq] at h
      rw [h]
  | error m => simp [try_load] at h

/-- Success-path table contents of a single-season run: the chain of
persist calls applied to the initial table contents. -/
theorem runMain_single_tables {fetch : FetchResults} {S : Int} {sl adv ts : String}
    {db0 db' : DB} {meta : List MetaRow}
    (h : runMain [S] sl adv (fun _ => fetch) ts db0 = .ok (db', meta)) (u : String) :
    tableRows db' u = chainRows S u (chainOf fetch sl adv) (tableRows db0 u) := by
  cases hts : fetch.team_stats with
  | error e =>
      simp only [runMain, runSeasons, export_season_error_ts hts] at h
      exact absurd h (by simp)
  | ok ftm =>
      cases hsc : fetch.schedules with
      | error e =>
          simp only [runMain, runSeasons, export_season_error_sc hts hsc] at h
          exact absurd h (by simp)
      | ok fsc =>
          have hexp := export_season_eq_chain hts hsc S sl adv ts db0
          simp only [runMain, runSeasons, hexp, List.nil_append] at h
          split at h <;>
          · simp only [Except.ok.injEq, Prod.mk.injEq] at h
            obtain ⟨h1, h2⟩ := h
            subst h1
            simp only [tableRows, appendLedger_tables, indexPhase_tables]
            exact applyChain_tableRows S ts (chainOf fetch sl adv) ⟨db0, [], []⟩ u

theorem chainSeasonOK_of_fetch {fetch : FetchResults} {S : Int}
    (h : FetchFramesSeason fetch S) (sl adv : String) :
    ChainSeasonOK S (chainOf fetch sl adv) := by
  obtain ⟨h1, h2, h3, h4, h5, h6, h7, h8⟩ := h
  intro c hc f hf r hr
  simp only [chainOf, ADV_STAT_TYPES, List.map_cons, List.map_nil, List.cons_append,
    List.nil_append, List.mem_cons, List.not_mem_nil, or_false] at hc
  rcases hc with hc|hc|hc|hc|hc|hc|hc|hc <;> subst hc
  · exact h1 f (try_load_eq_some hf) r hr
  · exact h2 f (try_load_eq_some hf) r hr
  · exact h3 f (try_load_eq_some hf) r hr
  · exact h4 f (try_load_eq_some hf) r hr
  · exact h5 f (try_load_eq_some hf) r hr
  · exact h6 f (try_load_eq_some hf) r hr
  · exact h7 f (try_load_eq_some hf) r hr
  · exact h8 f (try_load_eq_some hf) r hr

theorem chainRows_id_of_not_named {S : Int} {u : String} {C : List ChainItem}
    (h : ∀ c ∈ C, c.1 ≠ u) (L : List Row) :
    chainRows S u C L = L := by
  induction C generalizing L with
  | nil => rfl
  | cons c C ih =>
      have hc := h c (List.mem_cons_self c C)
      obtain ⟨t, fr, sm⟩ := c
      rw [chainRows_cons]
      have hst : stepRows S u L (t, fr, sm) = L := by
        cases fr with
        | none => rfl
        | some f =>
            simp only [stepRows]
            rw [if_neg]
            intro hw
            exact hc hw.1.symm
      rw [hst]
      exact ih (fun c' h' => h c' (List.mem_cons_of_mem _ h')) L

/-- When a chain contains exactly one item writing table u, the final
rows of u are the old rows of other seasons followed by that frame. -/
theorem chainRows_single_write {S : Int} {u : String} {C1 C2 : List ChainItem}
    {f : Frame} {sm : Option String}
    (h1 : ∀ c ∈ C1, c.1 ≠ u) (h2 : ∀ c ∈ C2, c.1 ≠ u) (hf : f.cols ≠ [])
    (L : List Row) :
    chainRows S u (C1 ++ (u, some f, sm) :: C2) L =
      L.filter (fun r => r.season != S) ++ f.rows := by
  unfold chainRows
  rw [List.foldl_append]
  show chainRows S u ((u, some f, sm) :: C2) (chainRows S u C1 L) = _
  rw [chainRows_id_of_not_named h1, chainRows_cons]
  have hst : stepRows S u L (u, some f, sm) =
      L.filter (fun r => r.season != S) ++ f.rows := by
    simp [stepRows, hf]
  rw [hst]
  exact chainRows_id_of_not_named h2 _

theorem advTableName_eq (st adv : String) :
    advTableName st adv = "pfr_advstats_" ++ st ++ "_" ++ adv := by
  show (("pfr_advstats_" ++ st ++ "_" ++ adv) ++ "") = "pfr_advstats_" ++ st ++ "_" ++ adv
  exact String.append_empty _

theorem advTableName_length (st adv : String) :
    (advTableName st adv).length = 14 + st.length + adv.length := by
  rw [advTableName_eq]
  have h1 : ("pfr_advstats_" : String).length = 13 := rfl
  have h2 : ("_" : String).length = 1 := rfl
  simp only [String.length_append, h1, h2]
  omega

theorem advTableName_ne_short {st adv n : String} (h : n.length < 14) :
    advTableName st adv ≠ n := by
  intro he
  have hl := congrArg String.length he
  rw [advTableName_length] at hl
  omega

theorem filter_eq_season {S : Int} {L X : List Row} (hX : ∀ r ∈ X, r.season = S) :
    (L.filter (fun r => r.season != S) ++ X).filter (fun r => r.season == S) = X := by
  rw [List.filter_append, List.filter_filter]
  have h1 : (L.filter fun a => (a.season == S) && (a.season != S)) = [] := by
    rw [List.filter_eq_nil_iff]
    intro r hr
    cases h : (r.season == S) <;> simp [bne, h]
  rw [h1, List.nil_append]
  exact List.filter_eq_self.mpr fun r hr => by simp [hX r hr]

theorem adv_items_ne (fetch : FetchResults) {adv n : String} (hn : n.length < 14) :
    ∀ c ∈ ADV_STAT_TYPES.map (fun st =>
      ((advTableName st adv, try_load (advFetch fetch st), some adv) : ChainItem)),
      c.1 ≠ n := by
  intro c hc
  simp only [ADV_STAT_TYPES, List.map_cons, List.map_nil, List.mem_cons,
    List.not_mem_nil, or_false] at hc
  rcases hc with hc|hc|hc|hc <;> subst hc <;> exact advTableName_ne_short hn

/-- C1: running the export of one season twice back-to-back with the
same options against the same database leaves every dataset table with
exactly one copy of the rows of that season: the second run changes no
table contents, and the two required tables hold exactly the single
fetched copy of the season rows. -/
theorem export_twice_no_duplicates
    {fetch : FetchResults} {S : Int} {sl adv ts1 ts2 : String}
    {db0 db1 db2 : DB} {m1 m2 : List MetaRow}
    (hseason : FetchFramesSeason fetch S)
    (h1 : runMain [S] sl adv (fun _ => fetch) ts1 db0 = .ok (db1, m1))
    (h2 : runMain [S] sl adv (fun _ => fetch) ts2 db1 = .ok (db2, m2)) :
    (∀ u, tableRows db2 u = tableRows db1 u) ∧
    (∀ ftm, fetch.team_stats = .ok ftm → ftm.cols ≠ [] →
      (tableRows db2 "team_stats").filter (fun r => r.season == S) = ftm.rows) ∧
    (∀ fsc, fetch.schedules = .ok fsc → fsc.cols ≠ [] →
      (tableRows db2 "schedules").filter (fun r => r.season == S) = fsc.rows) := by
  have hCOK := chainSeasonOK_of_fetch hseason sl adv
  refine ⟨fun u => ?_, fun ftm hts hcols => ?_, fun fsc hsc hcols => ?_⟩
  · rw [runMain_single_tables h2 u, runMain_single_tables h1 u, chainRows_idem hCOK]
  · have hts' : try_load fetch.team_stats = some ftm := by rw [hts]; rfl
    have hchain : chainOf fetch sl adv =
        [] ++ (("team_stats", some ftm, some sl) : ChainItem) ::
          ([("schedules", try_load fetch.schedules, none),
            ("rosters", try_load fetch.rosters, none),
            ("injuries", try_load fetch.injuries, none)] ++
           ADV_STAT_TYPES.map (fun st =>
             ((advTableName st adv, try_load (advFetch fetch st), some adv) : ChainItem))) := by
      rw [chainOf, hts']
      rfl
    rw [runMain_single_tables h2, hchain,
      chainRows_single_write (by simp) ?h2ne hcols, filter_eq_season]
    · intro r hr
      exact hseason.1 ftm hts r hr
    case h2ne =>
      intro c hc
      rw [List.mem_append] at hc
      rcases hc with hc | hc
      · simp only [List.mem_cons, List.not_mem_nil, or_false] at hc
        rcases hc with hc|hc|hc
        · subst hc
          show ("schedules" : String) ≠ "team_stats"
          decide
        · subst hc
          show ("rosters" : String) ≠ "team_stats"
          decide
        · subst hc
          show ("injuries" : String) ≠ "team_stats"
          decide
      · exact adv_items_ne fetch (by decide) c hc
  · have hsc' : try_load fetch.schedules = some fsc := by rw [hsc]; rfl
    have hchain : chainOf fetch sl adv =
        [(("team_stats", try_load fetch.team_stats, some sl) : ChainItem)] ++
          (("schedules", some fsc, none) : ChainItem) ::
          ([("rosters", try_load fetch.rosters, none),
            ("injuries", try_load fetch.injuries, none)] ++
           ADV_STAT_TYPES.map (fun st =>
             ((advTableName st adv, try_load (advFetch fetch st), some adv) : ChainItem))) := by
      rw [chainOf, hsc']
      rfl
    rw [runMain_single_tables h2, hchain,
      chainRows_single_write ?h1ne ?h2ne hcols, filter_eq_season]
    · intro r hr
      exact hseason.2.1 fsc hsc r hr
    case h1ne =>
      intro c hc
      simp only [List.mem_cons, List.not_mem_nil, or_false] at hc
      subst hc
      show ("team_stats" : String) ≠ "schedules"
      decide
    case h2ne =>
      intro c hc
      rw [List.mem_append] at hc
      rcases hc with hc | hc
      · simp only [List.mem_cons, List.not_mem_nil, or_false] at hc
        rcases hc with hc|hc
        · subst hc
          show ("rosters" : String) ≠ "schedules"
          decide
        · subst hc
          show ("injuries" : String) ≠ "schedules"
          decide
      · exact adv_items_ne fetch (by decide) c hc

theorem wFetch_frames_season : FetchFramesSeason wFetch 2023 := by
  refine ⟨?_, ?_, ?_, ?_, ?_, ?_, ?_, ?_⟩ <;> intro f hf <;>
    first
      | (cases hf; decide)
      | (exact absurd hf (by simp [wFetch]))

/-- Witness for C1 at a concrete two-run execution. -/
theorem export_twice_no_duplicates_witness :
    (∀ u, tableRows wDB2 u = tableRows wDB1 u) ∧
    (∀ ftm, wFetch.team_stats = .ok ftm → ftm.cols ≠ [] →
      (tableRows wDB2 "team_stats").filter (fun r => r.season == 2023) = ftm.rows) ∧
    (∀ fsc, wFetch.schedules = .ok fsc → fsc.cols ≠ [] →
      (tableRows wDB2 "schedules").filter (fun r => r.season == 2023) = fsc.rows) :=
  export_twice_no_duplicates wFetch_frames_season
    (show wRun1 = .ok (wDB1, okMeta wRun1) from rfl)
    (show wRun2 = .ok (wDB2, okMeta wRun2) from rfl)

/-- C5: a fetched frame with zero rows and zero columns is skipped with
a warning: persist leaves the table, the ledger and the metadata
accumulator completely untouched. -/
theorem persist_empty_columnless_skipped {f : Frame} (hrows : f.rows = [])
    (hcols : f.cols = []) (S : Int) (ts t : String) (sm : Option String)
    (s : SeasonState) :
    persist S ts t (some f) sm s = s :=
  persist_skip hcols S ts t sm s

/-- Witness for C5 at a concrete empty frame. -/
theorem persist_empty_columnless_skipped_witness :
    persist 2023 "2025-01-01T00:00:00+00:00" "rosters" (some ⟨[], []⟩) none wState =
      wState :=
  persist_empty_columnless_skipped rfl rfl 2023 "2025-01-01T00:00:00+00:00" "rosters"
    none wState

/-- C9: a frame with zero rows but at least one column is not skipped:
the existing rows of the season are deleted from the table, no rows are
inserted in their place, and a metadata (ledger) row is still recorded,
after the prior ledger row of the pair is deleted. -/
theorem persist_empty_frame_still_writes {f : Frame} (hrows : f.rows = [])
    (hcols : f.cols ≠ []) (S : Int) (ts t : String) (sm : Option String)
    (s : SeasonState) :
    tableRows (persist S ts t (some f) sm s).db t =
        (tableRows s.db t).filter (fun r => r.season != S) ∧
    (persist S ts t (some f) sm s).metadata_rows =
        s.metadata_rows ++ [⟨t, S, sm, ts⟩] ∧
    (persist S ts t (some f) sm s).db.ledger =
        s.db.ledger.filter (fun r => !(r.table_name == t && r.season == S)) := by
  refine ⟨?_, persist_write_meta hcols S ts t sm s, persist_write_ledger hcols S ts t sm s⟩
  rw [tableRows, persist_write_tables hcols]
  simp [hrows]

/-- Witness for C9: erasing a previously stored season with an empty
frame that still has columns. -/
theorem persist_empty_frame_still_writes_witness :
    tableRows (persist 2023 "T" "rosters" (some ⟨["season"], []⟩) none wState).db
        "rosters" =
      (tableRows wState.db "rosters").filter (fun r => r.season != 2023) ∧
    (persist 2023 "T" "rosters" (some ⟨["season"], []⟩) none wState).metadata_rows =
      wState.metadata_rows ++ [⟨"rosters", 2023, none, "T"⟩] ∧
    (persist 2023 "T" "rosters" (some ⟨["season"], []⟩) none wState).db.ledger =
      wState.db.ledger.filter
        (fun r => !(r.table_name == "rosters" && r.season == 2023)) :=
  persist_empty_frame_still_writes rfl (by decide) 2023 "T" "rosters" none wState

/-- C6: persist deletes only the rows whose season equals the requested
season before appending the fresh rows: other tables are untouched, the
multiplicity of every row of another season in the table is unchanged,
and a missing table is tolerated (the failed delete is swallowed) with
persistence proceeding as a first write. -/
theorem persist_scoped_delete (S : Int) {f : Frame} (hcols : f.cols ≠ [])
    (hf : ∀ r ∈ f.rows, r.season = S) (ts t : String) (sm : Option String)
    (s : SeasonState) :
    (∀ u, u ≠ t → (persist S ts t (some f) sm s).db.tables u = s.db.tables u) ∧
    (∀ r : Row, r.season ≠ S →
      (tableRows (persist S ts t (some f) sm s).db t).count r =
        (tableRows s.db t).count r) ∧
    (s.db.tables t = none →
      (persist S ts t (some f) sm s).db.tables t = some f.rows ∧
      (persist S ts t (some f) sm s).metadata_rows =
        s.metadata_rows ++ [⟨t, S, sm, ts⟩]) := by
  refine ⟨fun u hu => ?_, fun r hr => ?_, fun habs => ⟨?_, persist_write_meta hcols S ts t sm s⟩⟩
  · rw [persist_write_tables hcols, if_neg hu]
  · rw [tableRows, persist_write_tables hcols, if_pos rfl]
    rw [Option.getD_some, List.count_append]
    have h1 : ((tableRows s.db t).filter (fun x => x.season != S)).count r =
        (tableRows s.db t).count r :=
      List.count_filter (by simp [bne, hr])
    have h2 : f.rows.count r = 0 := by
      rw [List.count_eq_zero]
      intro hmem
      exact hr (hf r hmem)
    rw [h1, h2]
    omega
  · rw [persist_write_tables hcols, if_pos rfl, tableRows, habs]
    simp

theorem countPair_append (A B : List MetaRow) (t : String) (S : Int) :
    countPair (A ++ B) t S = countPair A t S + countPair B t S := by
  simp [countPair, List.filter_append]

theorem countPair_sublist_le {A B : List MetaRow} (h : A.Sublist B) (t : String) (S : Int) :
    countPair A t S ≤ countPair B t S :=
  (h.filter _).length_le

theorem countPair_filter_out (L : List MetaRow) (t : String) (S : Int) :
    countPair (L.filter (fun r => !(r.table_name == t && r.season == S))) t S = 0 := by
  simp only [countPair, List.filter_filter]
  have hnil : (L.filter fun a =>
      (a.table_name == t && a.season == S) && !(a.table_name == t && a.season == S)) = [] := by
    rw [List.filter_eq_nil_iff]
    intro a ha
    cases h : (a.table_name == t && a.season == S) <;> simp [h]
  rw [hnil]
  rfl

theorem countPair_single_ne {t t' : String} (h : t' ≠ t) (S S' : Int)
    (sm : Option String) (ts : String) :
    countPair [⟨t, S, sm, ts⟩] t' S' = 0 := by
  have hb : (t == t') = false := beq_eq_false_iff_ne.mpr (Ne.symm h)
  simp [countPair, hb]

theorem persist_ledger_sublist (S : Int) (ts t : String) (fr : Option Frame)
    (sm : Option String) (s : SeasonState) :
    (persist S ts t fr sm s).db.ledger.Sublist s.db.ledger := by
  cases fr with
  | none => exact List.Sublist.refl _
  | some f =>
      by_cases hc : f.cols = []
      · rw [persist_skip hc]
      · rw [persist_write_ledger hc]
        exact List.filter_sublist _

theorem persist_meta_cases (S : Int) (ts t : String) (fr : Option Frame)
    (sm : Option String) (s : SeasonState) :
    (persist S ts t fr sm s).metadata_rows = s.metadata_rows ∨
    ((persist S ts t fr sm s).metadata_rows = s.metadata_rows ++ [⟨t, S, sm, ts⟩] ∧
     (persist S ts t fr sm s).db.ledger =
       s.db.ledger.filter (fun r => !(r.table_name == t && r.season == S))) := by
  cases fr with
  | none => exact Or.inl rfl
  | some f =>
      by_cases hc : f.cols = []
      · rw [persist_skip hc]
        exact Or.inl rfl
      · exact Or.inr ⟨persist_write_meta hc S ts t sm s, persist_write_ledger hc S ts t sm s⟩

theorem persist_inv {S : Int} {ts : String} {L0 : List MetaRow} {s : SeasonState}
    (h : SeasonInv S ts L0 s) (t : String) (fr : Option Frame) (sm : Option String) :
    SeasonInv S ts L0 (persist S ts t fr sm s) := by
  obtain ⟨h1, h2, h3⟩ := h
  rcases persist_meta_cases S ts t fr sm s with hm | ⟨hm, hl⟩
  · refine ⟨by rw [hm]; exact h1, (persist_ledger_sublist S ts t fr sm s).trans h2, ?_⟩
    intro t' ht'
    rw [hm] at ht'
    have hz := h3 t' ht'
    have hle := countPair_sublist_le (persist_ledger_sublist S ts t fr sm s) t' S
    omega
  · refine ⟨?_, ?_, ?_⟩
    · intro r hr
      rw [hm] at hr
      rcases List.mem_append.1 hr with hr | hr
      · exact h1 r hr
      · simp only [List.mem_singleton] at hr
        subst hr
        exact ⟨rfl, rfl⟩
    · rw [hl]
      exact (List.filter_sublist _).trans h2
    · intro t' ht'
      by_cases hteq : t' = t
      · subst hteq
        rw [hl]
        exact countPair_filter_out _ _ _
      · rw [hm, countPair_append, countPair_single_ne hteq] at ht'
        have h0 : countPair s.db.ledger t' S = 0 := h3 t' (by omega)
        have hle : countPair (persist S ts t fr sm s).db.ledger t' S ≤
            countPair s.db.ledger t' S :=
          countPair_sublist_le (persist_ledger_sublist S ts t fr sm s) t' S
        omega

theorem applyChain_inv {S : Int} {ts : String} {L0 : List MetaRow} {s : SeasonState}
    (h : SeasonInv S ts L0 s) (C : List ChainItem) :
    SeasonInv S ts L0 (applyChain S ts s C) := by
  induction C generalizing s with
  | nil => exact h
  | cons c C ih => exact ih (persist_inv h c.1 c.2.1 c.2.2)

theorem applyChain_meta_names_sublist (S : Int) (ts : String) (C : List ChainItem)
    (s : SeasonState) :
    ((applyChain S ts s C).metadata_rows.map (fun r => r.table_name)).Sublist
      (s.metadata_rows.map (fun r => r.table_name) ++ C.map (fun c => c.1)) := by
  induction C generalizing s with
  | nil =>
      rw [applyChain_nil, List.map_nil, List.append_nil]
  | cons c C ih =>
      rw [applyChain_cons]
      have hx := ih (persist S ts c.1 c.2.1 c.2.2 s)
      rcases persist_meta_cases S ts c.1 c.2.1 c.2.2 s with hm | ⟨hm, _⟩
      · rw [hm] at hx
        refine hx.trans ?_
        rw [List.map_cons]
        exact List.Sublist.append_left (List.sublist_cons_self _ _) _
      · rw [hm] at hx
        simp only [List.map_append, List.map_cons, List.map_nil, List.append_assoc] at hx
        simpa using hx

theorem countPair_eq_zero_of_not_mem {rows : List MetaRow} {t : String}
    (h : t ∉ rows.map (fun r => r.table_name)) (S : Int) : countPair rows t S = 0 := by
  rw [countPair, List.filter_eq_nil_iff.mpr, List.length_nil]
  intro r hr hpred
  rw [Bool.and_eq_true, beq_iff_eq] at hpred
  exact h (hpred.1 ▸ List.mem_map_of_mem (fun r => r.table_name) hr)

theorem countPair_le_one_of_names_nodup {rows : List MetaRow} {t : String} {S : Int}
    (h : (rows.map (fun r => r.table_name)).Nodup) : countPair rows t S ≤ 1 := by
  induction rows with
  | nil => simp [countPair]
  | cons r rows ih =>
      rw [List.map_cons, List.nodup_cons] at h
      by_cases hp : (r.table_name == t && r.season == S) = true
      · have ht : r.table_name = t := by
          rw [Bool.and_eq_true, beq_iff_eq] at hp
          exact hp.1
        have h0 : countPair rows t S = 0 :=
          countPair_eq_zero_of_not_mem (ht ▸ h.1) S
        simp only [countPair, List.filter_cons, hp, if_true, List.length_cons]
        rw [show (List.filter (fun r => r.table_name == t && r.season == S) rows).length =
          countPair rows t S from rfl, h0]
      · simp only [countPair, List.filter_cons, hp, if_false]
        exact ih h.2

theorem countPair_eq_zero_of_season {rows : List MetaRow} {S s0 : Int}
    (hrs : ∀ r ∈ rows, r.season = s0) (hne : S ≠ s0) (t : String) :
    countPair rows t S = 0 := by
  rw [countPair, List.filter_eq_nil_iff.mpr, List.length_nil]
  intro r hr hpred
  rw [Bool.and_eq_true, beq_iff_eq, beq_iff_eq] at hpred
  exact hne (hpred.2.symm.trans (hrs r hr))

theorem chainOf_names_nodup (fetch : FetchResults) (sl : String) {adv : String}
    (hadv : adv = "week" ∨ adv = "season") :
    ((chainOf fetch sl adv).map (fun c => c.1)).Nodup := by
  rcases hadv with h | h <;> subst h <;>
    simp only [chainOf, ADV_STAT_TYPES, List.map_append, List.map_cons, List.map_nil] <;>
    decide

theorem export_season_ledger_facts {fetch : FetchResults} {S : Int} {sl adv ts : String}
    {db db' : DB} {rows : List MetaRow}
    (hadv : adv = "week" ∨ adv = "season")
    (h : export_season S sl adv fetch ts db = .ok (db', rows)) :
    (∀ r ∈ rows, r.season = S ∧ r.ingested_at = ts) ∧
    db'.ledger.Sublist db.ledger ∧
    (∀ t, 0 < countPair rows t S → countPair db'.ledger t S = 0) ∧
    (∀ t, countPair rows t S ≤ 1) := by
  cases hts : fetch.team_stats with
  | error e =>
      rw [export_season_error_ts hts] at h
      exact absurd h (by simp)
  | ok ftm =>
  cases hsc : fetch.schedules with
  | error e =>
      rw [export_season_error_sc hts hsc] at h
      exact absurd h (by simp)
  | ok fsc =>
  rw [export_season_eq_chain hts hsc] at h
  simp only [Except.ok.injEq, Prod.mk.injEq] at h
  obtain ⟨hdb, hrows⟩ := h
  subst hdb
  subst hrows
  obtain ⟨hi1, hi2, hi3⟩ :
      SeasonInv S ts db.ledger (applyChain S ts ⟨db, [], []⟩ (chainOf fetch sl adv)) :=
    applyChain_inv
      ⟨fun r hr => absurd hr (List.not_mem_nil r), List.Sublist.refl _,
       fun t ht => absurd ht (by simp [countPair])⟩ _
  have hledger := indexPhase_ledger adv (applyChain S ts ⟨db, [], []⟩ (chainOf fetch sl adv))
  refine ⟨hi1, ?_, ?_, ?_⟩
  · rw [hledger]
    exact hi2
  · intro t ht
    rw [hledger]
    exact hi3 t ht
  · intro t
    have hsub := applyChain_meta_names_sublist S ts (chainOf fetch sl adv) ⟨db, [], []⟩
    simp only [List.map_nil, List.nil_append] at hsub
    exact countPair_le_one_of_names_nodup
      (hsub.nodup (chainOf_names_nodup fetch sl hadv))

theorem runSeasons_ledger_once {sl adv : String} (t : String) (S : Int)
    (hadv : adv = "week" ∨ adv = "season")
    {fetch : Int → FetchResults} {ts : String} :
    ∀ {seasons : List Int} {db : DB} {acc : List MetaRow} {dbF : DB} {accF : List MetaRow},
    runSeasons sl adv fetch ts seasons db acc = .ok (dbF, accF) →
    seasons.Nodup →
    countPair acc t S ≤ 1 →
    (0 < countPair acc t S → countPair db.ledger t S = 0 ∧ S ∉ seasons) →
    countPair accF t S ≤ 1 ∧
      (0 < countPair accF t S → countPair dbF.ledger t S = 0) := by
  intro seasons
  induction seasons with
  | nil =>
      intro db acc dbF accF h hnd hle hz
      simp only [runSeasons, Except.ok.injEq, Prod.mk.injEq] at h
      obtain ⟨h1, h2⟩ := h
      subst h1
      subst h2
      exact ⟨hle, fun hpos => (hz hpos).1⟩
  | cons s0 rest ih =>
      intro db acc dbF accF h hnd hle hz
      rw [List.nodup_cons] at hnd
      cases hexp : export_season s0 sl adv (fetch s0) ts db with
      | error e =>
          simp only [runSeasons, hexp] at h
          exact absurd h (by simp)
      | ok pair =>
          obtain ⟨db2, rows⟩ := pair
          simp only [runSeasons, hexp] at h
          obtain ⟨hrows_season, hsubl, hwz, hone⟩ := export_season_ledger_facts hadv hexp
          by_cases hS : S = s0
          · subst hS
            have hacc0 : countPair acc t S = 0 := by
              by_contra hne
              exact (hz (Nat.pos_of_ne_zero hne)).2 (List.mem_cons_self _ _)
            refine ih h hnd.2 ?_ ?_
            · rw [countPair_append, hacc0, Nat.zero_add]
              exact hone t
            · intro hpos
              rw [countPair_append, hacc0, Nat.zero_add] at hpos
              exact ⟨hwz t hpos, hnd.1⟩
          · have hrows0 : countPair rows t S = 0 :=
              countPair_eq_zero_of_season (fun r hr => (hrows_season r hr).1) hS t
            refine ih h hnd.2 ?_ ?_
            · rw [countPair_append, hrows0]
              omega
            · intro hpos
              rw [countPair_append, hrows0] at hpos
              obtain ⟨hz1, hz2⟩ := hz (by omega)
              have hle2 := countPair_sublist_le hsubl t S
              exact ⟨by omega, fun hmem => hz2 (List.mem_cons_of_mem _ hmem)⟩

/-- Counterexample to C2 as stated: a run whose input season list
contains the same season twice leaves TWO ledger rows for the pair
(team_stats, 2023), because the duplicate-deleting happens before the
single final batch append. -/
theorem ledger_pair_duplicated_on_repeated_season :
    countPair
      (okDB (runMain [2023, 2023] "reg" "week" (fun _ => wFetch)
        "2025-01-01T00:00:00+00:00" wDB0)).ledger "team_stats" 2023 = 2 := by
  decide

/-- C2 amended: after any successful run whose input season list has no
duplicate season, the ledger contains exactly one row for each
(table_name, season) pair written by the run, regardless of how many
rows for that pair the ledger held before. -/
theorem ledger_unique_per_pair
    {seasons : List Int} {sl adv ts : String} {fetch : Int → FetchResults}
    {db0 db' : DB} {meta : List MetaRow} {t : String} {S : Int}
    (hadv : adv = "week" ∨ adv = "season")
    (hnd : seasons.Nodup)
    (h : runMain seasons sl adv fetch ts db0 = .ok (db', meta))
    (htouched : 0 < countPair meta t S) :
    countPair db'.ledger t S = 1 := by
  cases hrun : runSeasons sl adv fetch ts seasons db0 [] with
  | error e =>
      simp only [runMain, hrun] at h
      exact absurd h (by simp)
  | ok pair =>
      obtain ⟨dbF, accF⟩ := pair
      simp only [runMain, hrun] at h
      have hfacts := runSeasons_ledger_once t S hadv hrun hnd
        (by simp [countPair]) (by simp [countPair])
      split at h
      · simp only [Except.ok.injEq, Prod.mk.injEq] at h
        obtain ⟨h1, h2⟩ := h
        subst h1
        subst h2
        rename_i hemp
        rw [List.isEmpty_iff] at hemp
        subst hemp
        simp [countPair] at htouched
      · simp only [Except.ok.injEq, Prod.mk.injEq] at h
        obtain ⟨h1, h2⟩ := h
        subst h1
        subst h2
        show countPair (dbF.ledger ++ accF) t S = 1
        rw [countPair_append]
        have h0 := hfacts.2 htouched
        have hle1 := hfacts.1
        omega

theorem export_season_ledger_sublist {fetch : FetchResults} {S : Int} {sl adv ts : String}
    {db db' : DB} {rows : List MetaRow}
    (h : export_season S sl adv fetch ts db = .ok (db', rows)) :
    db'.ledger.Sublist db.ledger ∧ (∀ r ∈ rows, r.season = S ∧ r.ingested_at = ts) := by
  cases hts : fetch.team_stats with
  | error e =>
      rw [export_season_error_ts hts] at h
      exact absurd h (by simp)
  | ok ftm =>
  cases hsc : fetch.schedules with
  | error e =>
      rw [export_season_error_sc hts hsc] at h
      exact absurd h (by simp)
  | ok fsc =>
  rw [export_season_eq_chain hts hsc] at h
  simp only [Except.ok.injEq, Prod.mk.injEq] at h
  obtain ⟨hdb, hrows⟩ := h
  subst hdb
  subst hrows
  obtain ⟨hi1, hi2, _⟩ :
      SeasonInv S ts db.ledger (applyChain S ts ⟨db, [], []⟩ (chainOf fetch sl adv)) :=
    applyChain_inv
      ⟨fun r hr => absurd hr (List.not_mem_nil r), List.Sublist.refl _,
       fun t ht => absurd ht (by simp [countPair])⟩ _
  have hledger := indexPhase_ledger adv (applyChain S ts ⟨db, [], []⟩ (chainOf fetch sl adv))
  exact ⟨hledger ▸ hi2, hi1⟩

theorem runSeasons_ok_facts {sl adv ts : String} {fetch : Int → FetchResults} :
    ∀ {seasons : List Int} {db : DB} {acc : List MetaRow} {dbF : DB} {accF : List MetaRow},
    runSeasons sl adv fetch ts seasons db acc = .ok (dbF, accF) →
    (∀ r ∈ dbF.ledger, r ∈ db.ledger) ∧
      (∀ r ∈ accF, r ∈ acc ∨ r.ingested_at = ts) := by
  intro seasons
  induction seasons with
  | nil =>
      intro db acc dbF accF h
      simp only [runSeasons, Except.ok.injEq, Prod.mk.injEq] at h
      obtain ⟨h1, h2⟩ := h
      subst h1
      subst h2
      exact ⟨fun r hr => hr, fun r hr => Or.inl hr⟩
  | cons s0 rest ih =>
      intro db acc dbF accF h
      cases hexp : export_season s0 sl adv (fetch s0) ts db with
      | error e =>
          simp only [runSeasons, hexp] at h
          exact absurd h (by simp)
      | ok pair =>
          obtain ⟨db2, rows⟩ := pair
          simp only [runSeasons, hexp] at h
          obtain ⟨hsubl, hrows⟩ := export_season_ledger_sublist hexp
          obtain ⟨ihm, iha⟩ := ih h
          refine ⟨fun r hr => hsubl.mem (ihm r hr), fun r hr => ?_⟩
          rcases iha r hr with hr2 | hr2
          · rcases List.mem_append.1 hr2 with hr3 | hr3
            · exact Or.inl hr3
            · exact Or.inr (hrows r hr3).2
          · exact Or.inr hr2

theorem runSeasons_error_of_required (sl adv ts : String) {fetch : Int → FetchResults}
    {S : Int} {e : String}
    (hreq : (fetch S).team_stats = .error e ∨ (fetch S).schedules = .error e) :
    ∀ (seasons : List Int) (db : DB) (acc : List MetaRow), S ∈ seasons →
    ∃ msg dba, runSeasons sl adv fetch ts seasons db acc = .error (msg, dba) ∧
      ∀ r ∈ dba.ledger, r ∈ db.ledger := by
  intro seasons
  induction seasons with
  | nil =>
      intro db acc hmem
      exact absurd hmem (List.not_mem_nil S)
  | cons s0 rest ih =>
      intro db acc hmem
      cases hexp : export_season s0 sl adv (fetch s0) ts db with
      | error msg =>
          refine ⟨msg, db, ?_, fun r hr => hr⟩
          simp only [runSeasons, hexp]
      | ok pair =>
          obtain ⟨db2, rows⟩ := pair
          by_cases hS : s0 = S
          · exfalso
            subst hS
            rcases hreq with hr | hr
            · rw [export_season_error_ts hr] at hexp
              exact absurd hexp (by simp)
            · cases hts : (fetch s0).team_stats with
              | error e2 =>
                  rw [export_season_error_ts hts] at hexp
                  exact absurd hexp (by simp)
              | ok ftm =>
                  rw [export_season_error_sc hts hr] at hexp
                  exact absurd hexp (by simp)
          · have hmem2 : S ∈ rest := by
              rcases List.mem_cons.1 hmem with h | h
              · exact absurd h.symm hS
              · exact h
            obtain ⟨hsubl, _⟩ := export_season_ledger_sublist hexp
            obtain ⟨msg, dba, hrun, hmemL⟩ := ih db2 (acc ++ rows) hmem2
            refine ⟨msg, dba, ?_, fun r hr => hsubl.mem (hmemL r hr)⟩
            simp only [runSeasons, hexp]
            exact hrun

/-- C3: a raised required fetch (team stats or schedules) for any season
in the run propagates uncaught: the run aborts with an error value (the
non-zero exit), and the ledger at the abort point contains no row that
was not already present before the run started — in particular no ledger
row was written for any dataset of the failing season. -/
theorem required_fetch_failure_aborts
    {seasons : List Int} {sl adv ts : String} {fetch : Int → FetchResults}
    {db0 : DB} {S : Int} {e : String}
    (hmem : S ∈ seasons)
    (hreq : (fetch S).team_stats = .error e ∨ (fetch S).schedules = .error e) :
    ∃ msg dba, runMain seasons sl adv fetch ts db0 = .error (msg, dba) ∧
      ∀ r ∈ dba.ledger, r ∈ db0.ledger := by
  obtain ⟨msg, dba, hrun, hmemL⟩ :=
    runSeasons_error_of_required sl adv ts hreq seasons db0 [] hmem
  refine ⟨msg, dba, ?_, hmemL⟩
  simp only [runMain, hrun]

/-- Witness for C3 at a concrete failing required fetch. -/
theorem required_fetch_failure_aborts_witness :
    ∃ msg dba,
      runMain [2023] "reg" "week" (fun _ => wFetchBad) "2025-01-01T00:00:00+00:00" wDB0 =
        .error (msg, dba) ∧
      ∀ r ∈ dba.ledger, r ∈ wDB0.ledger :=
  required_fetch_failure_aborts (List.mem_singleton.mpr rfl) (Or.inl rfl)

/-- C7: the ledger rows accumulated over all seasons are appended in one
final batch after every season is processed: the final ledger is a
pre-batch ledger, none of whose rows is new, followed by the whole
batch, and every batch row carries the single run-start timestamp. -/
theorem ledger_single_final_batch
    {seasons : List Int} {sl adv ts : String} {fetch : Int → FetchResults}
    {db0 db' : DB} {meta : List MetaRow}
    (h : runMain seasons sl adv fetch ts db0 = .ok (db', meta)) :
    ∃ pre, db'.ledger = pre ++ meta ∧ (∀ r ∈ pre, r ∈ db0.ledger) ∧
      ∀ r ∈ meta, r.ingested_at = ts := by
  cases hrun : runSeasons sl adv fetch ts seasons db0 [] with
  | error e =>
      simp only [runMain, hrun] at h
      exact absurd h (by simp)
  | ok pair =>
      obtain ⟨dbF, accF⟩ := pair
      simp only [runMain, hrun] at h
      obtain ⟨hledg, hts⟩ := runSeasons_ok_facts hrun
      have hts2 : ∀ r ∈ accF, r.ingested_at = ts := by
        intro r hr
        rcases hts r hr with h2 | h2
        · exact absurd h2 (List.not_mem_nil r)
        · exact h2
      split at h
      · simp only [Except.ok.injEq, Prod.mk.injEq] at h
        obtain ⟨h1, h2⟩ := h
        subst h1
        subst h2
        rename_i hemp
        rw [List.isEmpty_iff] at hemp
        rw [hemp]
        exact ⟨dbF.ledger, by rw [List.append_nil], hledg, by rw [hemp] at hts2; exact hts2⟩
      · simp only [Except.ok.injEq, Prod.mk.injEq] at h
        obtain ⟨h1, h2⟩ := h
        subst h1
        subst h2
        exact ⟨dbF.ledger, rfl, hledg, hts2⟩

/-- Witness for C7 at a concrete successful run. -/
theorem ledger_single_final_batch_witness :
    ∃ pre, wDB1.ledger = pre ++ okMeta wRun1 ∧ (∀ r ∈ pre, r ∈ wDB0.ledger) ∧
      ∀ r ∈ okMeta wRun1, r.ingested_at = "2025-01-01T00:00:00+00:00" :=
  ledger_single_final_batch (show wRun1 = .ok (wDB1, okMeta wRun1) from rfl)

/-- Witness for the amended C2 at a concrete run. -/
theorem ledger_unique_per_pair_witness :
    countPair wDB1.ledger "team_stats" 2023 = 1 :=
  ledger_unique_per_pair (Or.inl rfl) (by decide)
    (show wRun1 = .ok (wDB1, okMeta wRun1) from rfl) (by decide)

/-- Witness for C6 at a concrete frame against a state with no tables. -/
theorem persist_scoped_delete_witness :
    (∀ u, u ≠ "team_stats" →
      (persist 2023 "T" "team_stats" (some ⟨["season"], [⟨2023, 7⟩]⟩) none
          wState).db.tables u = wState.db.tables u) ∧
    (∀ r : Row, r.season ≠ 2023 →
      (tableRows (persist 2023 "T" "team_stats" (some ⟨["season"], [⟨2023, 7⟩]⟩) none
          wState).db "team_stats").count r =
        (tableRows wState.db "team_stats").count r) ∧
    (wState.db.tables "team_stats" = none →
      (persist 2023 "T" "team_stats" (some ⟨["season"], [⟨2023, 7⟩]⟩) none
          wState).db.tables "team_stats" = some [⟨2023, 7⟩] ∧
      (persist 2023 "T" "team_stats" (some ⟨["season"], [⟨2023, 7⟩]⟩) none
          wState).metadata_rows =
        wState.metadata_rows ++ [⟨"team_stats", 2023, none, "T"⟩]) :=
  persist_scoped_delete 2023 (by decide) (by decide) "T" "team_stats" none wState

theorem stepRows_congr {S : Int} {u : String} {L : List Row} {c c' : ChainItem}
    (h1 : c.1 = c'.1) (h2 : c.1 = u → c.2.1 = c'.2.1) :
    stepRows S u L c = stepRows S u L c' := by
  obtain ⟨t, fr, sm⟩ := c
  obtain ⟨t', fr', sm'⟩ := c'
  simp only at h1 h2
  subst h1
  by_cases ht : t = u
  · rw [h2 ht]
    cases fr' <;> rfl
  · have hL : ∀ (g : Option Frame) (sm0 : Option String), stepRows S u L (t, g, sm0) = L := by
      intro g sm0
      cases g with
      | none => rfl
      | some f =>
          simp only [stepRows]
          rw [if_neg]
          intro hw
          exact ht hw.1.symm
    rw [hL, hL]

theorem chainRows_congr {S : Int} {u : String} {C C' : List ChainItem}
    (hf : List.Forall₂ (fun c c' => c.1 = c'.1 ∧ (c.1 = u → c.2.1 = c'.2.1)) C C') :
    ∀ L, chainRows S u C L = chainRows S u C' L := by
  induction hf with
  | nil => intro L; rfl
  | cons hcc hrest ih =>
      intro L
      rw [chainRows_cons, chainRows_cons, stepRows_congr hcc.1 hcc.2]
      exact ih _

theorem runMain_single_ok {fetch : FetchResults} {ftm fsc : Frame}
    (hts : fetch.team_stats = .ok ftm) (hsc : fetch.schedules = .ok fsc)
    (S : Int) (sl adv ts : String) (db0 : DB) :
    ∃ db' meta, runMain [S] sl adv (fun _ => fetch) ts db0 = .ok (db', meta) := by
  have hexp := export_season_eq_chain hts hsc S sl adv ts db0
  simp only [runMain, runSeasons, hexp, List.nil_append]
  split
  · exact ⟨_, _, rfl⟩
  · exact ⟨_, _, rfl⟩

/-- C4: an optional-dataset fetch failure is reduced to a skip: try_load
collapses any raised exception to None and persist of a missing frame is
a no-op; with the required fetches intact the run still completes (exit
code 0); and every table other than those of the differing optional
datasets holds exactly the contents it holds in the run where those
fetches succeed. -/
theorem optional_fetch_failure_skipped
    {fetch fetch' : FetchResults} {S : Int} {sl adv ts : String}
    {db0 db1 : DB} {m1 : List MetaRow}
    (hts : fetch'.team_stats = fetch.team_stats)
    (hsc : fetch'.schedules = fetch.schedules)
    (h1 : runMain [S] sl adv (fun _ => fetch) ts db0 = .ok (db1, m1)) :
    (∀ e : String, try_load (.error e) = none) ∧
    (∀ (t : String) (sm : Option String) (s : SeasonState), persist S ts t none sm s = s) ∧
    (∃ db2 m2, runMain [S] sl adv (fun _ => fetch') ts db0 = .ok (db2, m2) ∧
      ∀ u,
        (u = "rosters" → try_load fetch'.rosters = try_load fetch.rosters) →
        (u = "injuries" → try_load fetch'.injuries = try_load fetch.injuries) →
        (∀ st ∈ ADV_STAT_TYPES, u = advTableName st adv →
          try_load (advFetch fetch' st) = try_load (advFetch fetch st)) →
        tableRows db2 u = tableRows db1 u) := by
  refine ⟨fun e => rfl, fun t sm s => rfl, ?_⟩
  cases hts0 : fetch.team_stats with
  | error e =>
      simp only [runMain, runSeasons, export_season_error_ts hts0] at h1
      exact absurd h1 (by simp)
  | ok ftm =>
  cases hsc0 : fetch.schedules with
  | error e =>
      simp only [runMain, runSeasons, export_season_error_sc hts0 hsc0] at h1
      exact absurd h1 (by simp)
  | ok fsc =>
  obtain ⟨db2, m2, h2⟩ :=
    runMain_single_ok (hts.trans hts0) (hsc.trans hsc0) S sl adv ts db0
  refine ⟨db2, m2, h2, fun u hro hin hadv => ?_⟩
  rw [runMain_single_tables h2 u, runMain_single_tables h1 u]
  apply chainRows_congr
  simp only [chainOf, ADV_STAT_TYPES, List.map_cons, List.map_nil, List.cons_append,
    List.nil_append]
  refine List.Forall₂.cons ⟨rfl, fun _ => by rw [hts]⟩ ?_
  refine List.Forall₂.cons ⟨rfl, fun _ => by rw [hsc]⟩ ?_
  refine List.Forall₂.cons ⟨rfl, fun hu => hro hu.symm⟩ ?_
  refine List.Forall₂.cons ⟨rfl, fun hu => hin hu.symm⟩ ?_
  refine List.Forall₂.cons ⟨rfl, fun hu => hadv "pass" (by decide) hu.symm⟩ ?_
  refine List.Forall₂.cons ⟨rfl, fun hu => hadv "rush" (by decide) hu.symm⟩ ?_
  refine List.Forall₂.cons ⟨rfl, fun hu => hadv "rec" (by decide) hu.symm⟩ ?_
  refine List.Forall₂.cons ⟨rfl, fun hu => hadv "def" (by decide) hu.symm⟩ List.Forall₂.nil

theorem IdxStep.same (db : DB) : IdxStep db db :=
  ⟨fun _ he => he, fun _ he => Or.inl he⟩

theorem IdxStep.trans {db1 db2 db3 : DB} (h12 : IdxStep db1 db2)
    (h23 : IdxStep db2 db3) : IdxStep db1 db3 := by
  refine ⟨fun e he => h23.1 e (h12.1 e he), fun e he => ?_⟩
  rcases h23.2 e he with h | h
  · exact h12.2 e h
  · refine Or.inr fun hmem => h ?_
    rw [List.mem_map] at hmem ⊢
    obtain ⟨x, hx, hx1⟩ := hmem
    exact ⟨x, h12.1 x hx, hx1⟩

theorem createIndex_IdxStep (db : DB) (n t : String) (c : List String) :
    IdxStep db (createIndexIfNotExists db n t c) := by
  unfold createIndexIfNotExists
  split
  · exact IdxStep.same db
  · rename_i hany
    refine ⟨fun e he => List.mem_append_left _ he, fun e he => ?_⟩
    rcases List.mem_append.1 he with h | h
    · exact Or.inl h
    · rw [List.mem_singleton] at h
      subst h
      refine Or.inr fun hmem => ?_
      rw [List.mem_map] at hmem
      obtain ⟨x, hx, hx1⟩ := hmem
      exact hany (List.any_eq_true.mpr ⟨x, hx, beq_iff_eq.mpr hx1⟩)

theorem createIndexIfTable_IdxStep (cr : List String) (tbl : String) (db : DB)
    (n : String) (c : List String) :
    IdxStep db (createIndexIfTable cr tbl db n c) := by
  unfold createIndexIfTable
  split
  · exact createIndex_IdxStep db n tbl c
  · exact IdxStep.same db

theorem foldl_IdxStep {α : Type} (g : DB → α → DB) (hg : ∀ d a, IdxStep d (g d a)) :
    ∀ (l : List α) (d : DB), IdxStep d (l.foldl g d) := by
  intro l
  induction l with
  | nil => intro d; exact IdxStep.same d
  | cons a l ih =>
      intro d
      rw [List.foldl_cons]
      exact (hg d a).trans (ih _)

theorem createIndex_creates (db : DB) (n t : String) (c : List String) :
    ∃ e ∈ (createIndexIfNotExists db n t c).indexes, e.1 = n := by
  unfold createIndexIfNotExists
  split
  · rename_i hany
    obtain ⟨x, hx, hbx⟩ := List.any_eq_true.mp hany
    exact ⟨x, hx, beq_iff_eq.mp hbx⟩
  · exact ⟨(n, t, c), List.mem_append_right _ (List.mem_singleton.mpr rfl), rfl⟩

theorem createIndexIfTable_creates {cr : List String} {tbl : String} (h : tbl ∈ cr)
    (db : DB) (n : String) (c : List String) :
    ∃ e ∈ (createIndexIfTable cr tbl db n c).indexes, e.1 = n := by
  unfold createIndexIfTable
  rw [if_pos h]
  exact createIndex_creates db n tbl c

theorem createIndex_creates_fresh {db : DB} {n : String}
    (h : n ∉ db.indexes.map (fun x => x.1)) (t : String) (c : List String) :
    (n, t, c) ∈ (createIndexIfNotExists db n t c).indexes := by
  unfold createIndexIfNotExists
  rw [if_neg]
  · exact List.mem_append_right _ (List.mem_singleton.mpr rfl)
  · intro hany
    obtain ⟨x, hx, hbx⟩ := List.any_eq_true.mp hany
    exact h (List.mem_map.mpr ⟨x, hx, beq_iff_eq.mp hbx⟩)

theorem createIndexIfTable_creates_fresh {cr : List String} {tbl : String}
    (hm : tbl ∈ cr) {db : DB} {n : String}
    (h : n ∉ db.indexes.map (fun x => x.1)) (c : List String) :
    (n, tbl, c) ∈ (createIndexIfTable cr tbl db n c).indexes := by
  unfold createIndexIfTable
  rw [if_pos hm]
  exact createIndex_creates_fresh h tbl c

theorem createIndexIfTable_names (cr : List String) (tbl : String) (db : DB)
    (n : String) (c : List String) :
    ∀ m ∈ (createIndexIfTable cr tbl db n c).indexes.map (fun x => x.1),
      m ∈ db.indexes.map (fun x => x.1) ∨ m = n := by
  intro m hm
  unfold createIndexIfTable at hm
  split at hm
  · unfold createIndexIfNotExists at hm
    split at hm
    · exact Or.inl hm
    · rw [List.map_append, List.mem_append] at hm
      rcases hm with hm | hm
      · exact Or.inl hm
      · simp only [List.map_cons, List.map_nil, List.mem_singleton] at hm
        exact Or.inr hm
  · exact Or.inl hm

theorem foldl_adv_creates {created : List String} {adv : String} :
    ∀ (l : List String) (d : DB) (st : String), st ∈ l →
    advTableName st adv ∈ created →
    ∃ e ∈ (l.foldl (fun d st0 =>
        let tn := advTableName st0 adv
        createIndexIfTable created tn d (s!"idx_{tn}_season") ["season"]) d).indexes,
      e.1 = (s!"idx_{advTableName st adv}_season" : String) := by
  intro l
  induction l with
  | nil =>
      intro d st hmem
      exact absurd hmem (List.not_mem_nil st)
  | cons a l ih =>
      intro d st hmem hcr
      rw [List.foldl_cons]
      rcases List.mem_cons.1 hmem with h | h
      · subst h
        obtain ⟨e, he, he1⟩ := createIndexIfTable_creates hcr d
          (s!"idx_{advTableName st adv}_season") ["season"]
        have hstep := foldl_IdxStep
          (fun d st0 =>
            let tn := advTableName st0 adv
            createIndexIfTable created tn d (s!"idx_{tn}_season") ["season"])
          (fun d a => createIndexIfTable_IdxStep created (advTableName a adv) d _ _) l
          (createIndexIfTable created (advTableName st adv) d
            (s!"idx_{advTableName st adv}_season") ["season"])
        exact ⟨e, hstep.1 e he, he1⟩
      · exact ih _ st h hcr

theorem insertNew_mem (l : List String) (x y : String) :
    y ∈ insertNew l x ↔ y ∈ l ∨ y = x := by
  unfold insertNew
  split
  · rename_i hx
    constructor
    · exact Or.inl
    · rintro (h | rfl)
      · exact h
      · exact hx
  · simp [List.mem_append]

theorem persist_meta_created_cases (S : Int) (ts t : String) (fr : Option Frame)
    (sm : Option String) (s : SeasonState) :
    ((persist S ts t fr sm s).metadata_rows = s.metadata_rows ∧
     (persist S ts t fr sm s).created_tables = s.created_tables) ∨
    ((persist S ts t fr sm s).metadata_rows = s.metadata_rows ++ [⟨t, S, sm, ts⟩] ∧
     (persist S ts t fr sm s).created_tables = insertNew s.created_tables t) := by
  cases fr with
  | none => exact Or.inl ⟨rfl, rfl⟩
  | some f =>
      by_cases hc : f.cols = []
      · rw [persist_skip hc]
        exact Or.inl ⟨rfl, rfl⟩
      · exact Or.inr ⟨persist_write_meta hc S ts t sm s, persist_write_created hc S ts t sm s⟩

theorem applyChain_created_iff (S : Int) (ts : String) (C : List ChainItem) :
    ∀ (s : SeasonState),
    (∀ t, t ∈ s.created_tables ↔ ∃ r ∈ s.metadata_rows, r.table_name = t) →
    ∀ t, t ∈ (applyChain S ts s C).created_tables ↔
      ∃ r ∈ (applyChain S ts s C).metadata_rows, r.table_name = t := by
  induction C with
  | nil => exact fun s h => h
  | cons c C ih =>
      intro s h
      rw [applyChain_cons]
      apply ih
      intro t0
      rcases persist_meta_created_cases S ts c.1 c.2.1 c.2.2 s with ⟨hm, hc⟩ | ⟨hm, hc⟩
      · rw [hm, hc]
        exact h t0
      · rw [hm, hc, insertNew_mem]
        constructor
        · rintro (hmem | rfl)
          · obtain ⟨r, hr, hr1⟩ := (h t0).1 hmem
            exact ⟨r, List.mem_append_left _ hr, hr1⟩
          · exact ⟨⟨c.1, S, c.2.2, ts⟩,
              List.mem_append_right _ (List.mem_singleton.mpr rfl), rfl⟩
        · rintro ⟨r, hr, hr1⟩
          rcases List.mem_append.1 hr with hr2 | hr2
          · exact Or.inl ((h t0).2 ⟨r, hr2, hr1⟩)
          · rw [List.mem_singleton] at hr2
            subst hr2
            exact Or.inr hr1.symm

theorem indexPhase_facts (adv : String) (s : SeasonState) :
    IdxStep s.db (indexPhase adv s) ∧
    ("team_stats" ∈ s.created_tables →
      (∃ e ∈ (indexPhase adv s).indexes, e.1 = "idx_team_stats_season_team") ∧
      ("idx_team_stats_season_team" ∉ s.db.indexes.map (fun x => x.1) →
        ("idx_team_stats_season_team", "team_stats", ["season", "team"]) ∈
          (indexPhase adv s).indexes)) ∧
    ("schedules" ∈ s.created_tables →
      (∃ e ∈ (indexPhase adv s).indexes, e.1 = "idx_schedules_season_week") ∧
      ("idx_schedules_season_week" ∉ s.db.indexes.map (fun x => x.1) →
        ("idx_schedules_season_week", "schedules", ["season", "week"]) ∈
          (indexPhase adv s).indexes)) ∧
    ("rosters" ∈ s.created_tables →
      (∃ e ∈ (indexPhase adv s).indexes, e.1 = "idx_rosters_season_team") ∧
      ("idx_rosters_season_team" ∉ s.db.indexes.map (fun x => x.1) →
        ("idx_rosters_season_team", "rosters", ["season", "team"]) ∈
          (indexPhase adv s).indexes)) ∧
    ("injuries" ∈ s.created_tables →
      (∃ e ∈ (indexPhase adv s).indexes, e.1 = "idx_injuries_season_week_team") ∧
      ("idx_injuries_season_week_team" ∉ s.db.indexes.map (fun x => x.1) →
        ("idx_injuries_season_week_team", "injuries", ["season", "week", "team"]) ∈
          (indexPhase adv s).indexes)) ∧
    (∀ st ∈ ADV_STAT_TYPES, advTableName st adv ∈ s.created_tables →
      ∃ e ∈ (indexPhase adv s).indexes,
        e.1 = (s!"idx_{advTableName st adv}_season" : String)) := by
  set d1 := createIndexIfTable s.created_tables "team_stats" s.db
    "idx_team_stats_season_team" ["season", "team"] with hd1
  set d2 := createIndexIfTable s.created_tables "schedules" d1
    "idx_schedules_season_week" ["season", "week"] with hd2
  set d3 := createIndexIfTable s.created_tables "rosters" d2
    "idx_rosters_season_team" ["season", "team"] with hd3
  set d4 := createIndexIfTable s.created_tables "injuries" d3
    "idx_injuries_season_week_team" ["season", "week", "team"] with hd4
  set dF := ADV_STAT_TYPES.foldl (fun d st =>
    let tn := advTableName st adv
    createIndexIfTable s.created_tables tn d (s!"idx_{tn}_season") ["season"]) d4 with hdF
  have hphase : indexPhase adv s = dF := rfl
  have s1 : IdxStep s.db d1 := createIndexIfTable_IdxStep _ _ _ _ _
  have s2 : IdxStep d1 d2 := createIndexIfTable_IdxStep _ _ _ _ _
  have s3 : IdxStep d2 d3 := createIndexIfTable_IdxStep _ _ _ _ _
  have s4 : IdxStep d3 d4 := createIndexIfTable_IdxStep _ _ _ _ _
  have s5 : IdxStep d4 dF := foldl_IdxStep _
    (fun d a => createIndexIfTable_IdxStep s.created_tables (advTableName a adv) d _ _)
    ADV_STAT_TYPES d4
  have s15 : IdxStep s.db dF := (((s1.trans s2).trans s3).trans s4).trans s5
  have s25 : IdxStep d1 dF := ((s2.trans s3).trans s4).trans s5
  have s35 : IdxStep d2 dF := (s3.trans s4).trans s5
  have s45 : IdxStep d3 dF := s4.trans s5
  have n1 := createIndexIfTable_names s.created_tables "team_stats" s.db
    "idx_team_stats_season_team" ["season", "team"]
  have n2 := createIndexIfTable_names s.created_tables "schedules" d1
    "idx_schedules_season_week" ["season", "week"]
  have n3 := createIndexIfTable_names s.created_tables "rosters" d2
    "idx_rosters_season_team" ["season", "team"]
  rw [hphase]
  refine ⟨s15, ?_, ?_, ?_, ?_, ?_⟩
  · intro hm
    constructor
    · obtain ⟨e, he, he1⟩ := createIndexIfTable_creates hm s.db
        "idx_team_stats_season_team" ["season", "team"]
      exact ⟨e, s25.1 e he, he1⟩
    · intro hfresh
      exact s25.1 _ (createIndexIfTable_creates_fresh hm hfresh _)
  · intro hm
    constructor
    · obtain ⟨e, he, he1⟩ := createIndexIfTable_creates hm d1
        "idx_schedules_season_week" ["season", "week"]
      exact ⟨e, s35.1 e he, he1⟩
    · intro hfresh
      have hfresh1 : "idx_schedules_season_week" ∉ d1.indexes.map (fun x => x.1) := by
        intro hmem
        rcases n1 _ hmem with h | h
        · exact hfresh h
        · exact absurd h (by decide)
      exact s35.1 _ (createIndexIfTable_creates_fresh hm hfresh1 _)
  · intro hm
    constructor
    · obtain ⟨e, he, he1⟩ := createIndexIfTable_creates hm d2
        "idx_rosters_season_team" ["season", "team"]
      exact ⟨e, s45.1 e he, he1⟩
    · intro hfresh
      have hfresh2 : "idx_rosters_season_team" ∉ d2.indexes.map (fun x => x.1) := by
        intro hmem
        rcases n2 _ hmem with h | h
        · rcases n1 _ h with h2 | h2
          · exact hfresh h2
          · exact absurd h2 (by decide)
        · exact absurd h (by decide)
      exact s45.1 _ (createIndexIfTable_creates_fresh hm hfresh2 _)
  · intro hm
    constructor
    · obtain ⟨e, he, he1⟩ := createIndexIfTable_creates hm d3
        "idx_injuries_season_week_team" ["season", "week", "team"]
      exact ⟨e, s5.1 e he, he1⟩
    · intro hfresh
      have hfresh3 : "idx_injuries_season_week_team" ∉ d3.indexes.map (fun x => x.1) := by
        intro hmem
        rcases n3 _ hmem with h | h
        · rcases n2 _ h with h2 | h2
          · rcases n1 _ h2 with h3 | h3
            · exact hfresh h3
            · exact absurd h3 (by decide)
          · exact absurd h2 (by decide)
        · exact absurd h (by decide)
      exact s5.1 _ (createIndexIfTable_creates_fresh hm hfresh3 _)
  · intro st hst hm
    exact foldl_adv_creates ADV_STAT_TYPES d4 st hst hm

/-- C8: after the persists of a season, export_season creates one
secondary index per table written in that season, keyed on season plus
the natural secondary key of the dataset (team for team_stats and
rosters, week for schedules, week and team for injuries, season only for
advanced stats), with create-if-absent semantics: every preexisting
index entry is preserved and no entry is ever added under an existing
index name, so an existing index is never rebuilt; in particular writing
team_stats and schedules leaves idx_team_stats_season_team and
idx_schedules_season_week present. -/
theorem secondary_indexes_created
    {fetch : FetchResults} {S : Int} {sl adv ts : String} {db db' : DB}
    {rows : List MetaRow}
    (h : export_season S sl adv fetch ts db = .ok (db', rows)) :
    (∀ e ∈ db.indexes, e ∈ db'.indexes) ∧
    (∀ e ∈ db'.indexes, e ∈ db.indexes ∨ e.1 ∉ db.indexes.map (fun x => x.1)) ∧
    ((∃ r ∈ rows, r.table_name = "team_stats") →
      (∃ e ∈ db'.indexes, e.1 = "idx_team_stats_season_team") ∧
      ("idx_team_stats_season_team" ∉ db.indexes.map (fun x => x.1) →
        ("idx_team_stats_season_team", "team_stats", ["season", "team"]) ∈ db'.indexes)) ∧
    ((∃ r ∈ rows, r.table_name = "schedules") →
      (∃ e ∈ db'.indexes, e.1 = "idx_schedules_season_week") ∧
      ("idx_schedules_season_week" ∉ db.indexes.map (fun x => x.1) →
        ("idx_schedules_season_week", "schedules", ["season", "week"]) ∈ db'.indexes)) ∧
    ((∃ r ∈ rows, r.table_name = "rosters") →
      (∃ e ∈ db'.indexes, e.1 = "idx_rosters_season_team") ∧
      ("idx_rosters_season_team" ∉ db.indexes.map (fun x => x.1) →
        ("idx_rosters_season_team", "rosters", ["season", "team"]) ∈ db'.indexes)) ∧
    ((∃ r ∈ rows, r.table_name = "injuries") →
      (∃ e ∈ db'.indexes, e.1 = "idx_injuries_season_week_team") ∧
      ("idx_injuries_season_week_team" ∉ db.indexes.map (fun x => x.1) →
        ("idx_injuries_season_week_team", "injuries", ["season", "week", "team"]) ∈
          db'.indexes)) ∧
    (∀ st ∈ ADV_STAT_TYPES, (∃ r ∈ rows, r.table_name = advTableName st adv) →
      ∃ e ∈ db'.indexes, e.1 = (s!"idx_{advTableName st adv}_season" : String)) := by
  cases hts : fetch.team_stats with
  | error e =>
      rw [export_season_error_ts hts] at h
      exact absurd h (by simp)
  | ok ftm =>
  cases hsc : fetch.schedules with
  | error e =>
      rw [export_season_error_sc hts hsc] at h
      exact absurd h (by simp)
  | ok fsc =>
  rw [export_season_eq_chain hts hsc] at h
  simp only [Except.ok.injEq, Prod.mk.injEq] at h
  obtain ⟨hdb, hrows⟩ := h
  subst hdb
  subst hrows
  have hidx := applyChain_indexes S ts (chainOf fetch sl adv) ⟨db, [], []⟩
  have hiff := applyChain_created_iff S ts (chainOf fetch sl adv) ⟨db, [], []⟩
    (by intro t; simp)
  obtain ⟨⟨f0a, f0b⟩, f1, f2, f3, f4, f5⟩ :=
    indexPhase_facts adv (applyChain S ts ⟨db, [], []⟩ (chainOf fetch sl adv))
  rw [hidx] at f0a f0b f1 f2 f3 f4
  refine ⟨f0a, f0b, ?_, ?_, ?_, ?_, ?_⟩
  · intro hw
    exact f1 ((hiff "team_stats").2 hw)
  · intro hw
    exact f2 ((hiff "schedules").2 hw)
  · intro hw
    exact f3 ((hiff "rosters").2 hw)
  · intro hw
    exact f4 ((hiff "injuries").2 hw)
  · intro st hst hw
    exact f5 st hst ((hiff (advTableName st adv)).2 hw)

theorem idxName_eq (tn : String) :
    (s!"idx_{tn}_season" : String) = "idx_" ++ tn ++ "_season" := rfl

/-- Witness for C8 at a concrete export. -/
theorem secondary_indexes_created_witness :
    (∀ e ∈ wDB0.indexes, e ∈ (exDB wExport).indexes) ∧
    (∀ e ∈ (exDB wExport).indexes,
      e ∈ wDB0.indexes ∨ e.1 ∉ wDB0.indexes.map (fun x => x.1)) ∧
    ((∃ r ∈ exRows wExport, r.table_name = "team_stats") →
      (∃ e ∈ (exDB wExport).indexes, e.1 = "idx_team_stats_season_team") ∧
      ("idx_team_stats_season_team" ∉ wDB0.indexes.map (fun x => x.1) →
        ("idx_team_stats_season_team", "team_stats", ["season", "team"]) ∈
          (exDB wExport).indexes)) ∧
    ((∃ r ∈ exRows wExport, r.table_name = "schedules") →
      (∃ e ∈ (exDB wExport).indexes, e.1 = "idx_schedules_season_week") ∧
      ("idx_schedules_season_week" ∉ wDB0.indexes.map (fun x => x.1) →
        ("idx_schedules_season_week", "schedules", ["season", "week"]) ∈
          (exDB wExport).indexes)) ∧
    ((∃ r ∈ exRows wExport, r.table_name = "rosters") →
      (∃ e ∈ (exDB wExport).indexes, e.1 = "idx_rosters_season_team") ∧
      ("idx_rosters_season_team" ∉ wDB0.indexes.map (fun x => x.1) →
        ("idx_rosters_season_team", "rosters", ["season", "team"]) ∈
          (exDB wExport).indexes)) ∧
    ((∃ r ∈ exRows wExport, r.table_name = "injuries") →
      (∃ e ∈ (exDB wExport).indexes, e.1 = "idx_injuries_season_week_team") ∧
      ("idx_injuries_season_week_team" ∉ wDB0.indexes.map (fun x => x.1) →
        ("idx_injuries_season_week_team", "injuries", ["season", "week", "team"]) ∈
          (exDB wExport).indexes)) ∧
    (∀ st ∈ ADV_STAT_TYPES,
      (∃ r ∈ exRows wExport, r.table_name = advTableName st "week") →
      ∃ e ∈ (exDB wExport).indexes,
        e.1 = "idx_" ++ advTableName st "week" ++ "_season") := by
  have h := secondary_indexes_created
    (show wExport = .ok (exDB wExport, exRows wExport) from rfl)
  simpa only [idxName_eq] using h

/-- Witness for C4: the same run with the rosters fetch raising. -/
theorem optional_fetch_failure_skipped_witness :
    (∀ e : String, try_load (.error e) = none) ∧
    (∀ (t : String) (sm : Option String) (s : SeasonState),
      persist 2023 "2025-01-01T00:00:00+00:00" t none sm s = s) ∧
    (∃ db2 m2, runMain [2023] "reg" "week" (fun _ => wFetch)
        "2025-01-01T00:00:00+00:00" wDB0 = .ok (db2, m2) ∧
      ∀ u,
        (u = "rosters" → try_load wFetch.rosters = try_load wFetchOpt.rosters) →
        (u = "injuries" → try_load wFetch.injuries = try_load wFetchOpt.injuries) →
        (∀ st ∈ ADV_STAT_TYPES, u = advTableName st "week" →
          try_load (advFetch wFetch st) = try_load (advFetch wFetchOpt st)) →
        tableRows db2 u = tableRows (okDB wRunOpt) u) :=
  optional_fetch_failure_skipped rfl rfl
    (show wRunOpt = .ok (okDB wRunOpt, okMeta wRunOpt) from rfl)

theorem foldl_extend_eq (l : List Int) :
    ∀ base : List String,
    l.foldl (fun cmd s => cmd ++ ["--season", toString s]) base =
      base ++ (l.map (fun s => ["--season", toString s])).flatten := by
  induction l with
  | nil =>
      intro base
      simp
  | cons s l ih =>
      intro base
      rw [List.foldl_cons, ih, List.map_cons, List.flatten_cons, List.append_assoc]

/-- C10: the refresh command built by the dashboard lists the selected
seasons in ascending sorted order after the option flags, and the
command is independent of the order in which the seasons were picked. -/
theorem dashboard_seasons_sorted (python script a l : String) {sel : List Int}
    (hne : sel ≠ []) :
    buildCommand python script a l sel =
      ([python, script] ++ ["--advstats-summary", a, "--summary-level", l]) ++
        ((sortSeasons sel).map (fun s => ["--season", toString s])).flatten ∧
    List.Sorted (· ≤ ·) (sortSeasons sel) ∧
    (sortSeasons sel).Perm sel ∧
    (∀ sel' : List Int, sel.Perm sel' →
      buildCommand python script a l sel = buildCommand python script a l sel') := by
  refine ⟨foldl_extend_eq (sortSeasons sel) _,
    List.sorted_insertionSort _ sel, List.perm_insertionSort _ sel, ?_⟩
  intro sel' hperm
  have hsorteq : sortSeasons sel = sortSeasons sel' :=
    List.eq_of_perm_of_sorted
      (((List.perm_insertionSort _ sel).trans hperm).trans
        (List.perm_insertionSort _ sel').symm)
      (List.sorted_insertionSort _ sel) (List.sorted_insertionSort _ sel')
  unfold buildCommand
  rw [hsorteq]

/-- Witness for C10 at a concrete out-of-order selection. -/
theorem dashboard_seasons_sorted_witness :
    buildCommand "python" "scripts/season_to_sqlite.py" "week" "reg" [2024, 2023] =
      (["python", "scripts/season_to_sqlite.py"] ++
        ["--advstats-summary", "week", "--summary-level", "reg"]) ++
        ((sortSeasons [2024, 2023]).map (fun s => ["--season", toString s])).flatten ∧
    List.Sorted (· ≤ ·) (sortSeasons [2024, 2023]) ∧
    (sortSeasons [2024, 2023]).Perm [2024, 2023] ∧
    (∀ sel' : List Int, ([2024, 2023] : List Int).Perm sel' →
      buildCommand "python" "scripts/season_to_sqlite.py" "week" "reg" [2024, 2023] =
        buildCommand "python" "scripts/season_to_sqlite.py" "week" "reg" sel') :=
  dashboard_seasons_sorted "python" "scripts/season_to_sqlite.py" "week" "reg"
    (by decide)
